import Mathlib

/-!
Verification development for the shedulegen schedule-generator core
(src/daschedule.py).  The geometric constants, the schedule normalizer,
the text fitter, the two-line splitter and the two column builders
(draw_day, draw_xday) are embedded as executable Lean definitions, and
the documented properties of the layout engine are settled against them.

All pixel quantities are rationals, since the derived X-day class height
is 132.5 in the shipped configuration.  Font-metric measurement
(PIL.ImageFont.getlength) is kept abstract as a parameter of type
String to Int to Rat, because the algorithmic claims hold for any
measure function.
-/

/-- Band-height constant OTHER_HEIGHT (daschedule.py line 27). -/
def OTHER_HEIGHT : ℚ := 140

/-- Band-height constant CLASS_HEIGHT (daschedule.py line 28). -/
def CLASS_HEIGHT : ℚ := 250

/-- Band-height constant BREAK_HEIGHT (daschedule.py line 29). -/
def BREAK_HEIGHT : ℚ := 80

/-- Column width constant WIDTH (daschedule.py line 33). -/
def WIDTH : ℚ := 450

/-- Stroke width used on every bordered rectangle (daschedule.py line 49). -/
def STROKE_WIDTH : ℚ := 4

/-- Base font size for class labels (daschedule.py line 51), an integer
because the fitter searches integer sizes. -/
def BASE_CLASS_TEXT_SIZE : Int := 50

/-- Base font size for the fixed non-class bands (daschedule.py line 52). -/
def BASE_OTHER_TEXT_SIZE : ℚ := 40

/-- Fixed font size for room and teacher runs (daschedule.py line 56). -/
def BASE_ROOM_SIZE : ℚ := 30

/-- Main font family name (daschedule.py line 58). -/
def MAIN_FONT_FAMILY : String := "Inter"

/-- The derived X-day class height as a function of the three primitive
band heights, transcribed from daschedule.py line 31:
XDAY_CLASS_HEIGHT = ((OTHER_HEIGHT*3 + CLASS_HEIGHT*4 + BREAK_HEIGHT*2)
- (3*BREAK_HEIGHT) - (2*OTHER_HEIGHT)) / 8. -/
def xdayClassHeightOf (o c b : ℚ) : ℚ :=
  ((o * 3 + c * 4 + b * 2) - (3 * b) - (2 * o)) / 8

/-- The shipped XDAY_CLASS_HEIGHT (daschedule.py line 31). -/
def XDAY_CLASS_HEIGHT : ℚ :=
  xdayClassHeightOf OTHER_HEIGHT CLASS_HEIGHT BREAK_HEIGHT

/-- Bottom edge of the trailing white footer band of a regular day
column: the band is emitted at y + OTHER_HEIGHT*2 + CLASS_HEIGHT*4 +
BREAK_HEIGHT*2 with height OTHER_HEIGHT (daschedule.py lines 301-307),
here parameterized over the band-height constants. -/
def dayFooterBottom (o c b y : ℚ) : ℚ :=
  (y + (o * 2) + (c * 4) + (b * 2)) + o

/-- Bottom edge of the last band of the X-day column: the period-8 band
is emitted at y + OTHER_HEIGHT*2 + XDAY_CLASS_HEIGHT*7 + BREAK_HEIGHT*3
with height XDAY_CLASS_HEIGHT (daschedule.py lines 990-996), here
parameterized over the band-height constants. -/
def xdayLastBandBottom (o c b y : ℚ) : ℚ :=
  (y + (o * 2) + (xdayClassHeightOf o c b * 7) + (b * 3)) + xdayClassHeightOf o c b

/-- Claim C2, counterexample: at the shipped band-height constants the
regular-day total OTHER_HEIGHT*3 + CLASS_HEIGHT*4 + BREAK_HEIGHT*2
(= 1580) does NOT equal the sum OTHER_HEIGHT*2 + XDAY_CLASS_HEIGHT*8 +
BREAK_HEIGHT*3 + OTHER_HEIGHT stated by the claim (= 1720): the claimed
component sum double-counts one OTHER_HEIGHT band. -/
theorem c2_counterexample :
    ¬ (OTHER_HEIGHT * 3 + CLASS_HEIGHT * 4 + BREAK_HEIGHT * 2 =
      OTHER_HEIGHT * 2 + XDAY_CLASS_HEIGHT * 8 + BREAK_HEIGHT * 3 + OTHER_HEIGHT) := by
  norm_num [OTHER_HEIGHT, CLASS_HEIGHT, BREAK_HEIGHT, XDAY_CLASS_HEIGHT, xdayClassHeightOf]

/-- Claim C2, amended: for every choice of band-height constants, with
the X-day class height derived as on daschedule.py line 31, the
regular-day total OTHER*3 + CLASS*4 + BREAK*2 equals the X-day component
sum OTHER*2 + XDAY_CLASS*8 + BREAK*3 (the claimed extra trailing
OTHER_HEIGHT term does not belong in the X-day sum). -/
theorem c2_band_height_invariant (o c b : ℚ) :
    o * 3 + c * 4 + b * 2 = o * 2 + xdayClassHeightOf o c b * 8 + b * 3 := by
  unfold xdayClassHeightOf
  ring

/-- Claim C10: for every choice of the band-height constants, the
identity OTHER*2 + XDAY_CLASS*8 + BREAK*3 = OTHER*3 + CLASS*4 + BREAK*2
holds by the definition of the derived X-day class height, and hence for
every common origin y the bottom edge of the last band of the X-day
column equals the bottom edge of the footer band of a regular day
column. -/
theorem c10_columns_align (o c b y : ℚ) :
    (o * 2 + xdayClassHeightOf o c b * 8 + b * 3 = o * 3 + c * 4 + b * 2) ∧
      xdayLastBandBottom o c b y = dayFooterBottom o c b y := by
  constructor
  · unfold xdayClassHeightOf; ring
  · unfold xdayLastBandBottom dayFooterBottom xdayClassHeightOf; ring

/-- A Python dict key as used by the schedule tables: period numbers
arrive either as Python ints or as strings (daschedule.py lines 87-118,
flask_app.py lines 55-76). -/
inductive PyKey where
  | intKey (n : Int)
  | strKey (s : String)
deriving DecidableEq, Repr

/-- A Python dict with string values, modeled as its insertion-ordered
association list; Python dicts have unique keys and preserve insertion
order. -/
abbrev PyDict := List (PyKey × String)

/-- Lookup by key, the semantics of d[k] for a dict with unique keys;
none models the KeyError raised when the key is absent. -/
def dictGet (d : PyDict) (k : PyKey) : Option String :=
  match d with
  | [] => none
  | (k', v) :: rest => if k' = k then some v else dictGet rest k

/-- Lookup in an integer-keyed association list (the CLASS_COLORS
module constant). -/
def alistGet (d : List (Int × String)) (k : Int) : Option String :=
  match d with
  | [] => none
  | (k', v) :: rest => if k' = k then some v else alistGet rest k

/-- The fixed period color table (daschedule.py lines 61-70). -/
def CLASS_COLORS : List (Int × String) :=
  [(1, "#91DCFA"), (2, "#FEF59C"), (3, "#FFC4E7"), (4, "#E3B5FB"),
   (5, "#FF9795"), (6, "#A7F0D6"), (7, "#FDC688"), (8, "#CCCCCC")]

/-- CLASS_COLORS[k] for a literal key k in 1..8; such lookups appear in
draw_xday with constant indices and always succeed, so the default
branch is unreachable there. -/
def classColor (k : Int) : String := (alistGet CLASS_COLORS k).getD ""

/-- The whitespace characters stripped by Python str.strip and ignored
by int() around a numeric literal. -/
def isPyWhite (c : Char) : Bool :=
  c = ' ' ∨ c = '\t' ∨ c = '\n' ∨ c = '\r' ∨ c = '\x0b' ∨ c = '\x0c'

/-- Python str.strip on a character list: drop whitespace from both
ends. -/
def pyStrip (l : List Char) : List Char :=
  ((l.dropWhile isPyWhite).reverse.dropWhile isPyWhite).reverse

/-- Decimal digit test. -/
def isPyDigit (c : Char) : Bool := decide ('0' ≤ c ∧ c ≤ '9')

/-- Numeric value of a digit string. -/
def natOfDigits (l : List Char) : Nat :=
  l.foldl (fun a c => a * 10 + (c.toNat - ('0').toNat)) 0

/-- Python int(s) on a string: optional surrounding whitespace, an
optional sign, then a nonempty run of decimal digits; none models the
ValueError raised on any other shape. -/
def pyIntOfString (s : String) : Option Int :=
  match pyStrip s.toList with
  | '-' :: rest =>
      if rest ≠ [] ∧ rest.all isPyDigit then some (-(natOfDigits rest : Int)) else none
  | '+' :: rest =>
      if rest ≠ [] ∧ rest.all isPyDigit then some (natOfDigits rest : Int) else none
  | cs =>
      if cs ≠ [] ∧ cs.all isPyDigit then some (natOfDigits cs : Int) else none

/-- int(k) on a dict key: ints pass through, strings are parsed. -/
def keyToInt : PyKey → Option Int
  | PyKey.intKey n => some n
  | PyKey.strKey s => pyIntOfString s

/-- Python dict assignment d[k] = v: an existing binding keeps its
position and gets the new value, a fresh key is appended. -/
def dictSet (d : List (Int × String)) (k : Int) (v : String) : List (Int × String) :=
  match d with
  | [] => [(k, v)]
  | (k', v') :: rest => if k' = k then (k, v) :: rest else (k', v') :: dictSet rest k v

/-- The dict comprehension of daschedule.py line 148,
classes_int = int(k): v for k, v in classes.items(), built key by key
in iteration order; the whole build fails when any key fails to coerce. -/
def buildIntDictAux (acc : List (Int × String)) : PyDict → Option (List (Int × String))
  | [] => some acc
  | (k, v) :: rest =>
      match keyToInt k with
      | none => none
      | some n => buildIntDictAux (dictSet acc n v) rest

/-- classes_int from daschedule.py line 148. -/
def buildIntDict (d : PyDict) : Option (List (Int × String)) :=
  buildIntDictAux [] d

/-- Stable insertion of a pair into a key-sorted list of pairs. -/
def insertPair (p : Int × String) : List (Int × String) → List (Int × String)
  | [] => [p]
  | q :: rest => if p.1 ≤ q.1 then p :: q :: rest else q :: insertPair p rest

/-- Sorting by integer key; Python sorted() on dict items sorts the
pairs, and with unique keys that is exactly a sort by key. -/
def sortPairs : List (Int × String) → List (Int × String)
  | [] => []
  | p :: rest => insertPair p (sortPairs rest)

/-- normalize_classes (daschedule.py lines 139-150):
dict(sorted(int(k): v for k, v in classes.items())). -/
def normalize_classes (d : PyDict) : Option (List (Int × String)) :=
  (buildIntDict d).map sortPairs

/-- The test of daschedule.py line 190: whether the text contains a
space character (substring containment of a one-character pattern). -/
def hasSpaceB (s : String) : Bool := decide (' ' ∈ s.toList)

/-- Index of the first space in a character list, if any; this is
text.find applied from the start of the searched region. -/
def firstSpaceIdx : List Char → Option Nat
  | [] => none
  | c :: rest =>
      if c = ' ' then some 0 else (firstSpaceIdx rest).map (fun j => j + 1)

/-- Index of the last space in a character list, if any; this is
text.rfind applied to the searched region. -/
def lastSpaceIdx : List Char → Option Nat
  | [] => none
  | c :: rest =>
      match lastSpaceIdx rest with
      | some j => some (j + 1)
      | none => if c = ' ' then some 0 else none

/-- The split position chosen by split_text_two_lines (daschedule.py
lines 192-202): mid = len(text) // 2, left_space = text.rfind(" ", 0,
mid), right_space = text.find(" ", mid), then the side nearest to mid
with ties going to the left space. -/
def splitPos (cs : List Char) : Option Nat :=
  let mid := cs.length / 2
  match lastSpaceIdx (cs.take mid), (firstSpaceIdx (cs.drop mid)).map (fun j => j + mid) with
  | none, none => none
  | none, some r => some r
  | some l, none => some l
  | some l, some r => some (if mid - l ≤ r - mid then l else r)

/-- split_text_two_lines (daschedule.py lines 173-205): texts without a
space stay whole; otherwise the text is cut at the chosen split
position, the space there is dropped, and both halves are stripped. -/
def split_text_two_lines (s : String) : List String :=
  if hasSpaceB s then
    match splitPos s.toList with
    | none => [s]
    | some p =>
        [String.mk (pyStrip (s.toList.take p)),
         String.mk (pyStrip (s.toList.drop (p + 1)))]
  else [s]

/-- Distance of an index from the character midpoint. -/
def midDist (mid j : Nat) : Nat := if j < mid then mid - j else j - mid

/-- Abstract text measure: rendered advance width of a string at an
integer font size, the role played by measure_text_width
(daschedule.py lines 153-170) with a fixed font resource. -/
abbrev Measure := String → Int → ℚ

/-- The second component of the value returned by fit_text_to_width:
daschedule.py line 232 returns the produced lines when allow_split is
true, but returns the base size itself as second component when the
text already fits and allow_split is false (Python conditional
precedence: base_size, [text] if allow_split else base_size). -/
inductive FitSnd where
  | lines (ls : List String)
  | size (n : Int)
deriving DecidableEq, Repr

/-- Whether a FitSnd carries a list of lines. -/
def FitSnd.isLinesB : FitSnd → Bool
  | FitSnd.lines _ => true
  | FitSnd.size _ => false

/-- The downward font-size search of daschedule.py lines 237-242 and
246-250: starting at cur, return the first size at which every line
measures within maxW, stepping down by 1 while the size is at least
minS, and returning minS when the loop exhausts.  Fuel bounds the loop;
callers pass exactly the number of sizes in the searched range. -/
def searchDown (m : Measure) (ls : List String) (maxW : ℚ) (minS : Int) :
    Nat → Int → Int
  | 0, _ => minS
  | fuel + 1, cur =>
      if cur < minS then minS
      else if ls.all (fun l => decide (m l cur ≤ maxW)) then cur
      else searchDown m ls maxW minS fuel (cur - 1)

/-- fit_text_to_width (daschedule.py lines 208-250), parameterized by
the measure function in place of the base64 font resource. -/
def fit_text_to_width (m : Measure) (text : String) (maxW : ℚ)
    (base minS : Int) (allowSplit : Bool) : Int × FitSnd :=
  if m text base ≤ maxW then
    (base, if allowSplit then FitSnd.lines [text] else FitSnd.size base)
  else if allowSplit && hasSpaceB text then
    let ls := split_text_two_lines text
    (searchDown m ls maxW minS ((base - minS + 1).toNat) base, FitSnd.lines ls)
  else
    (searchDown m [text] maxW minS ((base - minS + 1).toNat) base, FitSnd.lines [text])

/-- The lines the fitter produced and the caller renders: the carried
list, except in the early-return branch with allow_split false, where
the rendered text is the single unsplit line. -/
def effLines (text : String) : FitSnd → List String
  | FitSnd.lines ls => ls
  | FitSnd.size _ => [text]

/-- A drawing primitive of the generated document: a rectangle or a
text run.  Every text run in the embedded functions is emitted with
text_anchor middle and dominant_baseline central, so those two constant
attributes are not carried.  fill is none on a text when the source
omits the fill attribute (black default). -/
inductive Elem where
  | rect (x y w h : ℚ) (stroke : Option String) (fill : String) (strokeWidth : Option ℚ)
  | text (content : String) (x y : ℚ) (fontSize : ℚ) (fontFamily : String) (fill : Option String)
deriving DecidableEq, Repr

/-- The five rectangles of one regular day column (daschedule.py lines
272-308): four class bands colored by CLASS_COLORS and the trailing
white footer band. -/
def dayRects (x y : ℚ) (c1 c2 c3 c4 : String) : List Elem :=
  [Elem.rect x (y + OTHER_HEIGHT) WIDTH CLASS_HEIGHT (some "black") c1 (some STROKE_WIDTH),
   Elem.rect x (y + OTHER_HEIGHT + CLASS_HEIGHT + BREAK_HEIGHT) WIDTH CLASS_HEIGHT
     (some "black") c2 (some STROKE_WIDTH),
   Elem.rect x (y + (OTHER_HEIGHT * 2) + (CLASS_HEIGHT * 2) + BREAK_HEIGHT) WIDTH CLASS_HEIGHT
     (some "black") c3 (some STROKE_WIDTH),
   Elem.rect x (y + (OTHER_HEIGHT * 2) + (CLASS_HEIGHT * 3) + (BREAK_HEIGHT * 2)) WIDTH CLASS_HEIGHT
     (some "black") c4 (some STROKE_WIDTH),
   Elem.rect x (y + (OTHER_HEIGHT * 2) + (CLASS_HEIGHT * 4) + (BREAK_HEIGHT * 2)) WIDTH OTHER_HEIGHT
     (some "black") "#FFFFFF" (some STROKE_WIDTH)]

/-- The text runs of one class band of a regular day column
(daschedule.py lines 310-360 and the three analogous blocks): the label
is fit with allow_split true at base size BASE_CLASS_TEXT_SIZE into
WIDTH - 20; two produced lines are placed at yA and yB, otherwise the
single label is placed at yS; the room and teacher runs follow at yR
and yT at the fixed BASE_ROOM_SIZE.  In Python a FitSnd.size result
would make len(font_size[1]) raise a TypeError, modeled as none; with
allow_split true that branch is unreachable. -/
def dayBlock (m : Measure) (x yA yB yS yR yT : ℚ)
    (label room teach : String) : Option (List Elem) :=
  match fit_text_to_width m label (WIDTH - 20) BASE_CLASS_TEXT_SIZE 8 true with
  | (_, FitSnd.size _) => none
  | (sz, FitSnd.lines ls) =>
      let labelElems :=
        match ls with
        | [l1, l2] =>
            [Elem.text l1 (x + WIDTH / 2) yA (sz : ℚ) MAIN_FONT_FAMILY none,
             Elem.text l2 (x + WIDTH / 2) yB (sz : ℚ) MAIN_FONT_FAMILY none]
        | _ => [Elem.text label (x + WIDTH / 2) yS (sz : ℚ) MAIN_FONT_FAMILY none]
      some (labelElems ++
        [Elem.text room (x + WIDTH / 2) yR BASE_ROOM_SIZE MAIN_FONT_FAMILY none,
         Elem.text teach (x + WIDTH / 2) yT BASE_ROOM_SIZE MAIN_FONT_FAMILY none])

/-- The text runs of the first class band of a regular day column, with
the vertical offsets of daschedule.py lines 310-360. -/
def dayBlock1 (m : Measure) (x y : ℚ) (l r t : String) : Option (List Elem) :=
  dayBlock m x (y + OTHER_HEIGHT + CLASS_HEIGHT * 0.35)
    (y + OTHER_HEIGHT + CLASS_HEIGHT * 0.60)
    (y + OTHER_HEIGHT + CLASS_HEIGHT / 2)
    (y + OTHER_HEIGHT + CLASS_HEIGHT * 0.85)
    (y + OTHER_HEIGHT + CLASS_HEIGHT * 0.15) l r t

/-- The text runs of the second class band of a regular day column,
with the vertical offsets of daschedule.py lines 362-412. -/
def dayBlock2 (m : Measure) (x y : ℚ) (l r t : String) : Option (List Elem) :=
  dayBlock m x (y + OTHER_HEIGHT + (CLASS_HEIGHT * 0.35) + CLASS_HEIGHT + BREAK_HEIGHT)
    (y + OTHER_HEIGHT + (CLASS_HEIGHT * 0.60) + CLASS_HEIGHT + BREAK_HEIGHT)
    (y + OTHER_HEIGHT + (CLASS_HEIGHT / 2) + CLASS_HEIGHT + BREAK_HEIGHT)
    (y + OTHER_HEIGHT + BREAK_HEIGHT + CLASS_HEIGHT * 1.85)
    (y + OTHER_HEIGHT + BREAK_HEIGHT + CLASS_HEIGHT * 1.15) l r t

/-- The text runs of the third class band of a regular day column, with
the vertical offsets of daschedule.py lines 414-464. -/
def dayBlock3 (m : Measure) (x y : ℚ) (l r t : String) : Option (List Elem) :=
  dayBlock m x (y + (OTHER_HEIGHT * 2) + (CLASS_HEIGHT * 2.35) + BREAK_HEIGHT)
    (y + (OTHER_HEIGHT * 2) + (CLASS_HEIGHT * 2.60) + BREAK_HEIGHT)
    (y + (OTHER_HEIGHT * 2) + (CLASS_HEIGHT / 2) + (CLASS_HEIGHT * 2) + BREAK_HEIGHT)
    (y + (OTHER_HEIGHT * 2) + BREAK_HEIGHT + CLASS_HEIGHT * 2.85)
    (y + (OTHER_HEIGHT * 2) + BREAK_HEIGHT + CLASS_HEIGHT * 2.15) l r t

/-- The text runs of the fourth class band of a regular day column,
with the vertical offsets of daschedule.py lines 466-516. -/
def dayBlock4 (m : Measure) (x y : ℚ) (l r t : String) : Option (List Elem) :=
  dayBlock m x (y + (OTHER_HEIGHT * 2) + (CLASS_HEIGHT * 3.35) + (BREAK_HEIGHT * 2))
    (y + (OTHER_HEIGHT * 2) + (CLASS_HEIGHT * 3.60) + (BREAK_HEIGHT * 2))
    (y + (OTHER_HEIGHT * 2) + (CLASS_HEIGHT / 2) + (CLASS_HEIGHT * 3) + (BREAK_HEIGHT * 2))
    (y + (OTHER_HEIGHT * 2) + (BREAK_HEIGHT * 2) + CLASS_HEIGHT * 3.85)
    (y + (OTHER_HEIGHT * 2) + (BREAK_HEIGHT * 2) + CLASS_HEIGHT * 3.15) l r t

/-- The four CLASS_COLORS lookups performed while the rectangle list of
a regular day column is built (daschedule.py lines 277, 284, 290, 298);
any missing period aborts with a KeyError. -/
def dayColors (p1 p2 p3 p4 : Int) : Option (String × String × String × String) :=
  Option.bind (alistGet CLASS_COLORS p1) fun c1 =>
  Option.bind (alistGet CLASS_COLORS p2) fun c2 =>
  Option.bind (alistGet CLASS_COLORS p3) fun c3 =>
  Option.bind (alistGet CLASS_COLORS p4) fun c4 =>
  some (c1, c2, c3, c4)

/-- The three table lookups of one class band of draw_day: the label
with the integer period as dict key (classes[daily_classes[i]],
daschedule.py line 310 and analogous), and the room and teacher with
the decimal-string form of the period as dict key
(rooms[str(daily_classes[i])], teachers[str(daily_classes[i])], lines
342-360 and analogous).  A missing key is a KeyError, modeled as
none. -/
def periodLookups (p : Int) (classes rooms teachers : PyDict) :
    Option (String × String × String) :=
  Option.bind (dictGet classes (PyKey.intKey p)) fun l =>
  Option.bind (dictGet rooms (PyKey.strKey (toString p))) fun r =>
  Option.bind (dictGet teachers (PyKey.strKey (toString p))) fun t =>
  some (l, r, t)

/-- Label, room and teacher lookups followed by the text runs of the
i-th class band; the source interleaves element construction with these
lookups in exactly this per-period order. -/
def dayPeriod (m : Measure) (x y : ℚ) (i : Nat) (p : Int)
    (classes rooms teachers : PyDict) : Option (List Elem) :=
  Option.bind (periodLookups p classes rooms teachers) fun lrt =>
  match i with
  | 1 => dayBlock1 m x y lrt.1 lrt.2.1 lrt.2.2
  | 2 => dayBlock2 m x y lrt.1 lrt.2.1 lrt.2.2
  | 3 => dayBlock3 m x y lrt.1 lrt.2.1 lrt.2.2
  | _ => dayBlock4 m x y lrt.1 lrt.2.1 lrt.2.2

/-- draw_day (daschedule.py lines 253-518) for the pattern
[p1, p2, p3, p4]: five rectangles whose class colors come from
CLASS_COLORS, then for each pattern period in order the label, room and
teacher runs.  A lookup failure anywhere aborts the render; the source
raises at its first failing lookup, and here the failing render is
uniformly none. -/
def draw_day (m : Measure) (x y : ℚ) (p1 p2 p3 p4 : Int)
    (classes rooms teachers : PyDict) : Option (List Elem) :=
  Option.bind (dayColors p1 p2 p3 p4) fun cs =>
  Option.bind (dayPeriod m x y 1 p1 classes rooms teachers) fun b1 =>
  Option.bind (dayPeriod m x y 2 p2 classes rooms teachers) fun b2 =>
  Option.bind (dayPeriod m x y 3 p3 classes rooms teachers) fun b3 =>
  Option.bind (dayPeriod m x y 4 p4 classes rooms teachers) fun b4 =>
  some (dayRects x y cs.1 cs.2.1 cs.2.2.1 cs.2.2.2 ++ b1 ++ b2 ++ b3 ++ b4)

/-- Whether pat occurs at the head of s. -/
def listHasHead : List Char → List Char → Bool
  | [], _ => true
  | _ :: _, [] => false
  | p :: ps, c :: cs => p = c && listHasHead ps cs

/-- Whether pat occurs as a contiguous run anywhere in s. -/
def listHasSub (pat : List Char) : List Char → Bool
  | [] => pat.isEmpty
  | c :: cs => listHasHead pat (c :: cs) || listHasSub pat cs

/-- The case-sensitive substring test of daschedule.py line 903:
whether the string contains the exact substring Foundations. -/
def hasFoundations (s : String) : Bool :=
  listHasSub ("Foundations".toList) s.toList

/-- The dict comprehension of daschedule.py line 903: every value
containing the substring Foundations is replaced by the caller-supplied
free-period name; keys and ordering are unchanged. -/
def substFoundations (free : String) (classes : PyDict) : PyDict :=
  classes.map (fun kv => (kv.1, if hasFoundations kv.2 then free else kv.2))

/-- The thirteen rectangles of the X-day column (daschedule.py lines
905-996): the office-hours header, eight short class bands in period
order with the CLASS_COLORS of periods 1..8 (constant indices), three
break bands and one lunch band. -/
def xdayRects (x y : ℚ) : List Elem :=
  [Elem.rect x y WIDTH OTHER_HEIGHT (some "black") "#AB91FA" (some STROKE_WIDTH),
   Elem.rect x (y + OTHER_HEIGHT) WIDTH XDAY_CLASS_HEIGHT (some "black") (classColor 1) (some STROKE_WIDTH),
   Elem.rect x (y + OTHER_HEIGHT + XDAY_CLASS_HEIGHT) WIDTH XDAY_CLASS_HEIGHT (some "black") (classColor 2) (some STROKE_WIDTH),
   Elem.rect x (y + OTHER_HEIGHT + (XDAY_CLASS_HEIGHT * 2)) WIDTH BREAK_HEIGHT (some "black") "#00B6FF" (some STROKE_WIDTH),
   Elem.rect x (y + OTHER_HEIGHT + (XDAY_CLASS_HEIGHT * 2) + BREAK_HEIGHT) WIDTH XDAY_CLASS_HEIGHT (some "black") (classColor 3) (some STROKE_WIDTH),
   Elem.rect x (y + OTHER_HEIGHT + (XDAY_CLASS_HEIGHT * 3) + BREAK_HEIGHT) WIDTH XDAY_CLASS_HEIGHT (some "black") (classColor 4) (some STROKE_WIDTH),
   Elem.rect x (y + OTHER_HEIGHT + (XDAY_CLASS_HEIGHT * 4) + BREAK_HEIGHT) WIDTH BREAK_HEIGHT (some "black") "#00B6FF" (some STROKE_WIDTH),
   Elem.rect x (y + OTHER_HEIGHT + (XDAY_CLASS_HEIGHT * 4) + (BREAK_HEIGHT * 2)) WIDTH XDAY_CLASS_HEIGHT (some "black") (classColor 5) (some STROKE_WIDTH),
   Elem.rect x (y + OTHER_HEIGHT + (XDAY_CLASS_HEIGHT * 5) + (BREAK_HEIGHT * 2)) WIDTH OTHER_HEIGHT (some "black") "#A8FA91" (some STROKE_WIDTH),
   Elem.rect x (y + (OTHER_HEIGHT * 2) + (XDAY_CLASS_HEIGHT * 5) + (BREAK_HEIGHT * 2)) WIDTH XDAY_CLASS_HEIGHT (some "black") (classColor 6) (some STROKE_WIDTH),
   Elem.rect x (y + (OTHER_HEIGHT * 2) + (XDAY_CLASS_HEIGHT * 6) + (BREAK_HEIGHT * 2)) WIDTH XDAY_CLASS_HEIGHT (some "black") (classColor 7) (some STROKE_WIDTH),
   Elem.rect x (y + (OTHER_HEIGHT * 2) + (XDAY_CLASS_HEIGHT * 7) + (BREAK_HEIGHT * 2)) WIDTH BREAK_HEIGHT (some "black") "#00B6FF" (some STROKE_WIDTH),
   Elem.rect x (y + (OTHER_HEIGHT * 2) + (XDAY_CLASS_HEIGHT * 7) + (BREAK_HEIGHT * 3)) WIDTH XDAY_CLASS_HEIGHT (some "black") (classColor 8) (some STROKE_WIDTH)]

/-- The font size of an X-day class label: the fitter is invoked with
allow_split false and only its size is used (daschedule.py line 1014
and analogous). -/
def xdayFitSize (m : Measure) (s : String) : ℚ :=
  ((fit_text_to_width m s (WIDTH - 20) BASE_CLASS_TEXT_SIZE 8 false).1 : ℚ)

/-- The twenty-two text runs of the X-day column (daschedule.py lines
1000-1176), in emission order: the header label, then for each of the
eight periods in ascending numeric order the class label (fit with
allow_split false) and its fixed time caption, with the three break
captions and the lunch pair interleaved at their fixed offsets. -/
def xdayTexts (m : Measure) (x y : ℚ) (s1 s2 s3 s4 s5 s6 s7 s8 : String) : List Elem :=
  [Elem.text "Office Hours" (x + WIDTH / 2) (y + (OTHER_HEIGHT / 2)) BASE_OTHER_TEXT_SIZE MAIN_FONT_FAMILY none,
   Elem.text s1 (x + WIDTH / 2) (y + OTHER_HEIGHT + (XDAY_CLASS_HEIGHT * 0.3)) (xdayFitSize m s1) MAIN_FONT_FAMILY none,
   Elem.text "8:30 - 9:10 a.m." (x + WIDTH / 2) (y + OTHER_HEIGHT + (XDAY_CLASS_HEIGHT * 0.7)) BASE_OTHER_TEXT_SIZE MAIN_FONT_FAMILY none,
   Elem.text s2 (x + WIDTH / 2) (y + OTHER_HEIGHT + XDAY_CLASS_HEIGHT + (XDAY_CLASS_HEIGHT * 0.3)) (xdayFitSize m s2) MAIN_FONT_FAMILY none,
   Elem.text "9:15 - 9:55 a.m." (x + WIDTH / 2) (y + OTHER_HEIGHT + XDAY_CLASS_HEIGHT + (XDAY_CLASS_HEIGHT * 0.7)) BASE_OTHER_TEXT_SIZE MAIN_FONT_FAMILY none,
   Elem.text "Break 9:55 - 10:05 a.m." (x + WIDTH / 2) (y + OTHER_HEIGHT + (XDAY_CLASS_HEIGHT * 2) + (BREAK_HEIGHT / 2)) BASE_OTHER_TEXT_SIZE MAIN_FONT_FAMILY none,
   Elem.text s3 (x + WIDTH / 2) (y + OTHER_HEIGHT + (XDAY_CLASS_HEIGHT * 2) + BREAK_HEIGHT + (XDAY_CLASS_HEIGHT * 0.3)) (xdayFitSize m s3) MAIN_FONT_FAMILY none,
   Elem.text "10:05 - 10:45 a.m." (x + WIDTH / 2) (y + OTHER_HEIGHT + (XDAY_CLASS_HEIGHT * 2) + BREAK_HEIGHT + (XDAY_CLASS_HEIGHT * 0.7)) BASE_OTHER_TEXT_SIZE MAIN_FONT_FAMILY none,
   Elem.text s4 (x + WIDTH / 2) (y + OTHER_HEIGHT + (XDAY_CLASS_HEIGHT * 3) + BREAK_HEIGHT + (XDAY_CLASS_HEIGHT * 0.3)) (xdayFitSize m s4) MAIN_FONT_FAMILY none,
   Elem.text "10:50 - 11:30 a.m." (x + WIDTH / 2) (y + OTHER_HEIGHT + (XDAY_CLASS_HEIGHT * 3) + BREAK_HEIGHT + (XDAY_CLASS_HEIGHT * 0.7)) BASE_OTHER_TEXT_SIZE MAIN_FONT_FAMILY none,
   Elem.text "Break 11:30 - 11:40 a.m." (x + WIDTH / 2) (y + OTHER_HEIGHT + (XDAY_CLASS_HEIGHT * 4) + BREAK_HEIGHT + (BREAK_HEIGHT / 2)) BASE_OTHER_TEXT_SIZE MAIN_FONT_FAMILY none,
   Elem.text s5 (x + WIDTH / 2) (y + OTHER_HEIGHT + (XDAY_CLASS_HEIGHT * 4) + (BREAK_HEIGHT * 2) + (XDAY_CLASS_HEIGHT * 0.3)) (xdayFitSize m s5) MAIN_FONT_FAMILY none,
   Elem.text "11:40 a.m. - 12:20 p.m." (x + WIDTH / 2) (y + OTHER_HEIGHT + (XDAY_CLASS_HEIGHT * 4) + (BREAK_HEIGHT * 2) + (XDAY_CLASS_HEIGHT * 0.7)) BASE_OTHER_TEXT_SIZE MAIN_FONT_FAMILY none,
   Elem.text "Lunch" (x + WIDTH / 2) (y + OTHER_HEIGHT + (XDAY_CLASS_HEIGHT * 5) + (BREAK_HEIGHT * 2) + (OTHER_HEIGHT * 0.3)) (BASE_CLASS_TEXT_SIZE : ℚ) MAIN_FONT_FAMILY none,
   Elem.text "12:20 - 1:00 p.m." (x + WIDTH / 2) (y + OTHER_HEIGHT + (XDAY_CLASS_HEIGHT * 5) + (BREAK_HEIGHT * 2) + (OTHER_HEIGHT * 0.7)) BASE_OTHER_TEXT_SIZE MAIN_FONT_FAMILY none,
   Elem.text s6 (x + WIDTH / 2) (y + (OTHER_HEIGHT * 2) + (XDAY_CLASS_HEIGHT * 5) + (BREAK_HEIGHT * 2) + (XDAY_CLASS_HEIGHT * 0.3)) (xdayFitSize m s6) MAIN_FONT_FAMILY none,
   Elem.text "1:00 - 1:40 p.m." (x + WIDTH / 2) (y + (OTHER_HEIGHT * 2) + (XDAY_CLASS_HEIGHT * 5) + (BREAK_HEIGHT * 2) + (XDAY_CLASS_HEIGHT * 0.7)) BASE_OTHER_TEXT_SIZE MAIN_FONT_FAMILY none,
   Elem.text s7 (x + WIDTH / 2) (y + (OTHER_HEIGHT * 2) + (XDAY_CLASS_HEIGHT * 6) + (BREAK_HEIGHT * 2) + (XDAY_CLASS_HEIGHT * 0.3)) (xdayFitSize m s7) MAIN_FONT_FAMILY none,
   Elem.text "1:45 - 2:25 p.m." (x + WIDTH / 2) (y + (OTHER_HEIGHT * 2) + (XDAY_CLASS_HEIGHT * 6) + (BREAK_HEIGHT * 2) + (XDAY_CLASS_HEIGHT * 0.7)) BASE_OTHER_TEXT_SIZE MAIN_FONT_FAMILY none,
   Elem.text "Break 2:25 - 2:35 p.m." (x + WIDTH / 2) (y + (OTHER_HEIGHT * 2) + (XDAY_CLASS_HEIGHT * 7) + (BREAK_HEIGHT * 2) + (BREAK_HEIGHT / 2)) BASE_OTHER_TEXT_SIZE MAIN_FONT_FAMILY none,
   Elem.text s8 (x + WIDTH / 2) (y + (OTHER_HEIGHT * 2) + (XDAY_CLASS_HEIGHT * 7) + (BREAK_HEIGHT * 3) + (XDAY_CLASS_HEIGHT * 0.3)) (xdayFitSize m s8) MAIN_FONT_FAMILY none,
   Elem.text "2:35 - 3:15 p.m." (x + WIDTH / 2) (y + (OTHER_HEIGHT * 2) + (XDAY_CLASS_HEIGHT * 7) + (BREAK_HEIGHT * 3) + (XDAY_CLASS_HEIGHT * 0.7)) BASE_OTHER_TEXT_SIZE MAIN_FONT_FAMILY none]

/-- Four label lookups by integer period key (daschedule.py lines 1009,
1026, 1050, 1066, 1090, 1122, 1138, 1162 look up classes[1]..classes[8]
with integer keys). -/
def dictGet4 (d : PyDict) (k1 k2 k3 k4 : Int) :
    Option (String × String × String × String) :=
  Option.bind (dictGet d (PyKey.intKey k1)) fun v1 =>
  Option.bind (dictGet d (PyKey.intKey k2)) fun v2 =>
  Option.bind (dictGet d (PyKey.intKey k3)) fun v3 =>
  Option.bind (dictGet d (PyKey.intKey k4)) fun v4 =>
  some (v1, v2, v3, v4)

/-- draw_xday (daschedule.py lines 883-1179): the label table first
passes through the Foundations substitution, then the thirteen
rectangles and twenty-two text runs of the X-day column are emitted,
with the eight class labels looked up under the integer keys 1..8 in
ascending order; a missing label is a KeyError (none). -/
def draw_xday (m : Measure) (x y : ℚ) (classes : PyDict) (free : String) :
    Option (List Elem) :=
  Option.bind (dictGet4 (substFoundations free classes) 1 2 3 4) fun a =>
  Option.bind (dictGet4 (substFoundations free classes) 5 6 7 8) fun b =>
  some (xdayRects x y ++
    xdayTexts m x y a.1 a.2.1 a.2.2.1 a.2.2.2 b.1 b.2.1 b.2.2.1 b.2.2.2)

/-- A measure that maps every string at every size to width zero; used
to exercise the render functions at concrete inputs where every label
fits. -/
def mzero : Measure := fun _ _ => 0

/-- A label table holding exactly the periods of the Day-1 pattern
under integer keys. -/
def labs1357 : PyDict :=
  [(PyKey.intKey 1, "A"), (PyKey.intKey 3, "C"),
   (PyKey.intKey 5, "E"), (PyKey.intKey 7, "G")]

/-- A teacher table holding the Day-1 pattern periods under
decimal-string keys. -/
def tchr1357 : PyDict :=
  [(PyKey.strKey "1", "t1"), (PyKey.strKey "3", "t3"),
   (PyKey.strKey "5", "t5"), (PyKey.strKey "7", "t7")]

/-- A room table holding the Day-1 pattern periods under
decimal-string keys. -/
def room1357 : PyDict :=
  [(PyKey.strKey "1", "r1"), (PyKey.strKey "3", "r3"),
   (PyKey.strKey "5", "r5"), (PyKey.strKey "7", "r7")]

/-- A complete label table for periods 1..8 under integer keys, with a
Foundations entry at period 5. -/
def labs8 : PyDict :=
  [(PyKey.intKey 1, "Class 1"), (PyKey.intKey 2, "Class 2"),
   (PyKey.intKey 3, "Class 3"), (PyKey.intKey 4, "Class 4"),
   (PyKey.intKey 5, "Foundations (H)"), (PyKey.intKey 6, "Class 6"),
   (PyKey.intKey 7, "Class 7"), (PyKey.intKey 8, "Class 8")]

/-- Recognizer for a break band: in the X-day column exactly the three
rectangles of fill #00B6FF (each of height BREAK_HEIGHT) are break
bands (daschedule.py lines 927-933, 948-954, 983-989). -/
def isBreakBand : Elem → Bool
  | Elem.rect _ _ _ _ _ f _ => f = "#00B6FF"
  | _ => false

/-- Recognizer for the X-day office-hours header band, the single
rectangle of fill #AB91FA (daschedule.py lines 906-912). -/
def isXdayHeaderBand : Elem → Bool
  | Elem.rect _ _ _ _ _ f _ => f = "#AB91FA"
  | _ => false

/-- Recognizer for the lunch band, the single rectangle of fill
#A8FA91 (daschedule.py lines 962-968). -/
def isLunchBand : Elem → Bool
  | Elem.rect _ _ _ _ _ f _ => f = "#A8FA91"
  | _ => false

/-- Recognizer for an X-day class band: a rectangle filled with one of
the eight CLASS_COLORS values. -/
def isXdayClassBand : Elem → Bool
  | Elem.rect _ _ _ _ _ f _ => (CLASS_COLORS.map Prod.snd).contains f
  | _ => false

/-- Claim C7, counterexample: with allow_split false and a text that
already fits at the base size, fit_text_to_width returns the pair
(base_size, base_size) whose second component is a size, not the list
of produced lines (Python precedence on daschedule.py line 232:
base_size, [text] if allow_split else base_size). -/
theorem c7_counterexample :
    fit_text_to_width mzero "Hi" 10 50 8 false = (50, FitSnd.size 50) ∧
      (fit_text_to_width mzero "Hi" 10 50 8 false).2.isLinesB = false := by
  decide

/-- Claim C7, amended: with allowSplit true the fitter always returns a
pair of the chosen size and the produced lines, and with allowSplit
false it does so except when the text already fits at the base size, in
which case the second component is the base size itself rather than a
line list. -/
theorem c7_fit_result_shape (m : Measure) (text : String) (maxW : ℚ) (base minS : Int) :
    (fit_text_to_width m text maxW base minS true).2 =
      FitSnd.lines (if m text base ≤ maxW then [text]
        else if hasSpaceB text then split_text_two_lines text else [text]) ∧
    (fit_text_to_width m text maxW base minS false).2 =
      (if m text base ≤ maxW then FitSnd.size base else FitSnd.lines [text]) := by
  constructor <;> unfold fit_text_to_width
  · by_cases h : m text base ≤ maxW
    · simp [h]
    · simp only [h, if_false, if_neg h]
      cases hsp : hasSpaceB text <;> simp [hsp]
  · by_cases h : m text base ≤ maxW
    · simp [h]
    · simp [h]

/-- Claim C1, counterexample: with a label table containing every
pattern period of Day 1 but an empty room table, draw_day aborts with a
lookup failure, so a period absent from the room table is not recovered
as an empty string, and the engine can fail although no label is
missing. -/
theorem c1_counterexample :
    draw_day mzero 0 0 1 3 5 7 labs1357 [] tchr1357 = none ∧
      dictGet labs1357 (PyKey.intKey 1) = some "A" ∧
      dictGet labs1357 (PyKey.intKey 3) = some "C" ∧
      dictGet labs1357 (PyKey.intKey 5) = some "E" ∧
      dictGet labs1357 (PyKey.intKey 7) = some "G" := by
  decide

/-- Claim C3, counterexample: on a complete label table the X-day
column contains three break bands, not exactly two; the break bands are
the rectangles of fill #00B6FF. -/
theorem c3_counterexample :
    (draw_xday mzero 0 0 labs8 "Study Period").map (fun es => es.countP isBreakBand) = some 3 ∧
      ¬ (draw_xday mzero 0 0 labs8 "Study Period").map (fun es => es.countP isBreakBand) = some 2 := by
  decide

/-- The colliding input of the C8 counterexample: a Python dict may
hold the int key 1 and the str key "1" simultaneously, and both are
coercible to the integer 1. -/
def dupKeyInput : PyDict := [(PyKey.intKey 1, "b"), (PyKey.strKey "1", "a")]

/-- Claim C8, counterexample: on a mapping whose keys are all coercible
to integers but collide after coercion, normalize_classes drops a
value: the input carries the value b, the output does not. -/
theorem c8_counterexample :
    normalize_classes dupKeyInput = some [(1, "a")] ∧
      "b" ∈ dupKeyInput.map Prod.snd ∧
      ¬ "b" ∈ [((1 : Int), "a")].map Prod.snd := by
  decide

/-- Every line of ls measures within maxW at size s. -/
def FitsAll (m : Measure) (ls : List String) (maxW : ℚ) (s : Int) : Prop :=
  ∀ l ∈ ls, m l s ≤ maxW

/-- The Bool check inside the size loop agrees with FitsAll. -/
theorem fitsAll_iff_all (m : Measure) (ls : List String) (maxW : ℚ) (s : Int) :
    (ls.all (fun l => decide (m l s ≤ maxW)) = true) ↔ FitsAll m ls maxW s := by
  simp [FitsAll, List.all_eq_true]

/-- Below the floor size the loop guard fails at once and the floor is
returned. -/
theorem searchDown_below (m : Measure) (ls : List String) (maxW : ℚ) (minS : Int) :
    ∀ fuel cur, cur < minS → searchDown m ls maxW minS fuel cur = minS := by
  intro fuel cur h
  cases fuel with
  | zero => rfl
  | succ fuel => unfold searchDown; rw [if_pos h]

/-- Correctness of the downward size search: with enough fuel and a
start at or above the floor, the result is either the largest size in
[minS, cur] at which every line fits, or, when no size in that range
fits, the floor minS. -/
theorem searchDown_spec (m : Measure) (ls : List String) (maxW : ℚ) (minS : Int) :
    ∀ fuel (cur : Int), minS ≤ cur → (cur - minS + 1).toNat ≤ fuel →
      (minS ≤ searchDown m ls maxW minS fuel cur ∧
        searchDown m ls maxW minS fuel cur ≤ cur ∧
        FitsAll m ls maxW (searchDown m ls maxW minS fuel cur) ∧
        ∀ t, minS ≤ t → t ≤ cur → FitsAll m ls maxW t →
          t ≤ searchDown m ls maxW minS fuel cur) ∨
      (searchDown m ls maxW minS fuel cur = minS ∧
        ∀ t, minS ≤ t → t ≤ cur → ¬ FitsAll m ls maxW t) := by
  intro fuel
  induction fuel with
  | zero => intro cur hc hf; omega
  | succ fuel ih =>
      intro cur hc hf
      unfold searchDown
      rw [if_neg (not_lt.mpr hc)]
      by_cases hall : ls.all (fun l => decide (m l cur ≤ maxW)) = true
      · rw [if_pos hall]
        exact Or.inl ⟨hc, le_refl _, (fitsAll_iff_all m ls maxW cur).mp hall,
          fun t _ ht _ => ht⟩
      · rw [if_neg hall]
        have hncur : ¬ FitsAll m ls maxW cur :=
          fun hfits => hall ((fitsAll_iff_all m ls maxW cur).mpr hfits)
        by_cases hc1 : minS ≤ cur - 1
        · rcases ih (cur - 1) hc1 (by omega) with
            ⟨h1, h2, h3, h4⟩ | ⟨h1, h2⟩
          · refine Or.inl ⟨h1, by omega, h3, fun t ht1 ht2 htf => ?_⟩
            rcases lt_or_eq_of_le ht2 with hlt | heq
            · exact h4 t ht1 (by omega) htf
            · exact absurd (heq ▸ htf) hncur
          · refine Or.inr ⟨h1, fun t ht1 ht2 htf => ?_⟩
            rcases lt_or_eq_of_le ht2 with hlt | heq
            · exact h2 t ht1 (by omega) htf
            · exact hncur (heq ▸ htf)
        · have hcur : cur = minS := by omega
          rw [searchDown_below m ls maxW minS fuel (cur - 1) (by omega)]
          refine Or.inr ⟨rfl, fun t ht1 ht2 htf => ?_⟩
          have : t = cur := by omega
          exact hncur (this ▸ htf)

/-- The size-optimality property of one fitter call: either the chosen
size lies in [minS, base], every produced line fits at it, and it is
the largest size in that range at which every produced line fits, or no
size in the range fits every produced line and the floor minS is
returned with the computed lines. -/
def FitOptimalAt (m : Measure) (text : String) (maxW : ℚ) (base minS : Int)
    (allowSplit : Bool) : Prop :=
  (minS ≤ (fit_text_to_width m text maxW base minS allowSplit).1 ∧
    (fit_text_to_width m text maxW base minS allowSplit).1 ≤ base ∧
    FitsAll m (effLines text (fit_text_to_width m text maxW base minS allowSplit).2) maxW
      (fit_text_to_width m text maxW base minS allowSplit).1 ∧
    ∀ t, minS ≤ t → t ≤ base →
      FitsAll m (effLines text (fit_text_to_width m text maxW base minS allowSplit).2) maxW t →
      t ≤ (fit_text_to_width m text maxW base minS allowSplit).1) ∨
  ((fit_text_to_width m text maxW base minS allowSplit).1 = minS ∧
    ∀ t, minS ≤ t → t ≤ base →
      ¬ FitsAll m (effLines text (fit_text_to_width m text maxW base minS allowSplit).2) maxW t)

/-- Claim C4: for every measure, text, width bound with the text
fitting the bound at the floor size, and floor at most the base size,
the fitter returns the largest integer size in [minS, base] at which
every produced line measures within the bound, and when no size in the
range fits all lines it returns the floor minS with the computed lines
regardless of overflow. -/
theorem c4_fitter_largest (m : Measure) (text : String) (maxW : ℚ)
    (base minS : Int) (allowSplit : Bool)
    (hmb : minS ≤ base) (hw : m text minS ≤ maxW) :
    FitOptimalAt m text maxW base minS allowSplit := by
  unfold FitOptimalAt fit_text_to_width
  by_cases h : m text base ≤ maxW
  · simp only [if_pos h]
    have hfits : FitsAll m [text] maxW base := by
      intro l hl
      rw [List.mem_singleton] at hl
      subst hl
      exact h
    cases allowSplit
    · exact Or.inl ⟨hmb, le_refl base, hfits, fun t _ ht _ => ht⟩
    · exact Or.inl ⟨hmb, le_refl base, hfits, fun t _ ht _ => ht⟩
  · simp only [if_neg h]
    cases hA : allowSplit && hasSpaceB text
    · simp only [hA, Bool.false_eq_true, if_false, effLines]
      exact searchDown_spec m [text] maxW minS ((base - minS + 1).toNat) base hmb (le_refl _)
    · simp only [hA, if_true, effLines]
      exact searchDown_spec m (split_text_two_lines text) maxW minS
        ((base - minS + 1).toNat) base hmb (le_refl _)

/-- A step measure for exercising the fitter at concrete inputs. -/
def mstep : Measure := fun _ s => if s ≤ 1 then 0 else 1000

/-- Witness for c4_fitter_largest at a concrete input. -/
theorem c4_witness :
    (8 : Int) ≤ 50 ∧ mstep "Hello" 8 ≤ 2000 ∧ FitOptimalAt mstep "Hello" 2000 50 8 true :=
  ⟨by decide, by decide, c4_fitter_largest mstep "Hello" 2000 50 8 true (by decide) (by decide)⟩

/-- firstSpaceIdx finds no index exactly when the list has no space. -/
theorem firstSpaceIdx_none_iff (l : List Char) :
    firstSpaceIdx l = none ↔ ∀ c ∈ l, c ≠ ' ' := by
  induction l with
  | nil => simp [firstSpaceIdx]
  | cons c rest ih =>
      by_cases hc : c = ' '
      · subst hc; simp [firstSpaceIdx]
      · simp [firstSpaceIdx, hc, Option.map_eq_none', ih]

/-- firstSpaceIdx returns the index of a space that no earlier index
shares. -/
theorem firstSpaceIdx_some (l : List Char) :
    ∀ j, firstSpaceIdx l = some j →
      l[j]? = some ' ' ∧ ∀ t, t < j → l[t]? ≠ some ' ' := by
  induction l with
  | nil => intro j h; simp [firstSpaceIdx] at h
  | cons c rest ih =>
      intro j h
      by_cases hc : c = ' '
      · subst hc
        simp [firstSpaceIdx] at h
        subst h
        exact ⟨by simp, fun t ht => by omega⟩
      · simp [firstSpaceIdx, hc, Option.map_eq_some'] at h
        obtain ⟨j', hj', rfl⟩ := h
        obtain ⟨h1, h2⟩ := ih j' hj'
        refine ⟨by simpa using h1, ?_⟩
        intro t ht
        cases t with
        | zero => simpa using hc
        | succ t' => simpa using h2 t' (by omega)

/-- When lastSpaceIdx finds nothing the list has no space. -/
theorem lastSpaceIdx_none_forward (l : List Char) (h : lastSpaceIdx l = none) :
    ∀ c ∈ l, c ≠ ' ' := by
  induction l with
  | nil => simp
  | cons c rest ih =>
      unfold lastSpaceIdx at h
      cases hrest : lastSpaceIdx rest with
      | some j => rw [hrest] at h; exact absurd h (by simp)
      | none =>
          rw [hrest] at h
          by_cases hc : c = ' '
          · rw [if_pos hc] at h; exact absurd h (by simp)
          · rw [if_neg hc] at h
            intro c' hc'
            rcases List.mem_cons.mp hc' with rfl | hmem
            · exact hc
            · exact ih hrest c' hmem

/-- lastSpaceIdx returns the index of a space that no later index
shares. -/
theorem lastSpaceIdx_some (l : List Char) :
    ∀ j, lastSpaceIdx l = some j →
      l[j]? = some ' ' ∧ ∀ t, j < t → l[t]? ≠ some ' ' := by
  induction l with
  | nil => intro j h; simp [lastSpaceIdx] at h
  | cons c rest ih =>
      intro j h
      unfold lastSpaceIdx at h
      cases hrest : lastSpaceIdx rest with
      | some j' =>
          rw [hrest] at h
          have hj : j' + 1 = j := by simpa using h
          subst hj
          obtain ⟨h1, h2⟩ := ih j' hrest
          refine ⟨by simpa using h1, ?_⟩
          intro t ht
          cases t with
          | zero => omega
          | succ t' => simpa using h2 t' (by omega)
      | none =>
          rw [hrest] at h
          by_cases hc : c = ' '
          · rw [if_pos hc] at h
            have hj : (0 : Nat) = j := by simpa using h
            subst hj
            refine ⟨by simpa using hc, ?_⟩
            intro t ht
            cases t with
            | zero => omega
            | succ t' =>
                intro hcon
                have hmem : ' ' ∈ rest := List.getElem?_mem (by simpa using hcon)
                exact lastSpaceIdx_none_forward rest hrest ' ' hmem rfl
          · rw [if_neg hc] at h; exact absurd h (by simp)

/-- The split position chosen for a text containing a space is a space
index at minimal distance from the character midpoint, and on a
distance tie with a left-side space the chosen index lies strictly
before the midpoint. -/
theorem splitPos_spec (cs : List Char) (hs : ' ' ∈ cs) :
    ∃ p, splitPos cs = some p ∧ cs[p]? = some ' ' ∧
      (∀ j, cs[j]? = some ' ' →
        midDist (cs.length / 2) p ≤ midDist (cs.length / 2) j) ∧
      (∀ j, cs[j]? = some ' ' →
        midDist (cs.length / 2) j = midDist (cs.length / 2) p →
        j < cs.length / 2 → p < cs.length / 2) := by
  set mid := cs.length / 2 with hmiddef
  have hLfacts : ∀ l, lastSpaceIdx (cs.take mid) = some l →
      l < mid ∧ cs[l]? = some ' ' ∧
        ∀ j, cs[j]? = some ' ' → j < mid → j ≤ l := by
    intro l hL
    obtain ⟨h1, h2⟩ := lastSpaceIdx_some (cs.take mid) l hL
    have hlt : l < mid := by
      by_contra hge
      have hlen : (cs.take mid).length ≤ l := by
        rw [List.length_take]
        omega
      rw [List.getElem?_eq_none hlen] at h1
      exact absurd h1 (by simp)
    refine ⟨hlt, by rw [← List.getElem?_take_of_lt hlt]; exact h1, ?_⟩
    intro j hj hjmid
    by_contra hgt
    exact h2 j (by omega) (by (rw [List.getElem?_take_of_lt hjmid]); exact hj)
  have hRfacts : ∀ r', firstSpaceIdx (cs.drop mid) = some r' →
      cs[r' + mid]? = some ' ' ∧
        ∀ j, cs[j]? = some ' ' → mid ≤ j → r' + mid ≤ j := by
    intro r' hR
    obtain ⟨h1, h2⟩ := firstSpaceIdx_some (cs.drop mid) r' hR
    rw [List.getElem?_drop] at h1
    refine ⟨by rw [Nat.add_comm] at h1; exact h1, ?_⟩
    intro j hj hjmid
    by_contra hlt
    refine h2 (j - mid) (by omega) ?_
    rw [List.getElem?_drop]
    have : mid + (j - mid) = j := by omega
    rw [this]
    exact hj
  cases hL : lastSpaceIdx (cs.take mid) with
  | none =>
      have hNoL : ∀ j, j < mid → cs[j]? ≠ some ' ' := by
        intro j hj hcon
        have hmem : ' ' ∈ cs.take mid :=
          List.getElem?_mem (by rw [List.getElem?_take_of_lt hj]; exact hcon)
        exact lastSpaceIdx_none_forward _ hL ' ' hmem rfl
      cases hR : firstSpaceIdx (cs.drop mid) with
      | none =>
          exfalso
          have hall : ∀ c ∈ cs.drop mid, c ≠ ' ' :=
            (firstSpaceIdx_none_iff _).mp hR
          obtain ⟨i, hi⟩ := List.getElem?_of_mem hs
          by_cases him : i < mid
          · exact hNoL i him hi
          · have hgot : (cs.drop mid)[i - mid]? = some ' ' := by
              rw [List.getElem?_drop]
              have heq : mid + (i - mid) = i := by omega
              rw [heq]
              exact hi
            exact hall ' ' (List.getElem?_mem hgot) rfl
      | some r' =>
          obtain ⟨hr1, hr2⟩ := hRfacts r' hR
          refine ⟨r' + mid, ?_, hr1, ?_, ?_⟩
          · simp only [splitPos, hL, hR, ← hmiddef, Option.map_some']
          · intro j hj
            by_cases hjm : j < mid
            · exact absurd hj (hNoL j hjm)
            · have := hr2 j hj (by omega)
              unfold midDist
              split_ifs <;> omega
          · intro j hj hje hjm
            exact absurd hj (hNoL j hjm)
  | some l =>
      obtain ⟨hl1, hl2, hl3⟩ := hLfacts l hL
      cases hR : firstSpaceIdx (cs.drop mid) with
      | none =>
          have hNoR : ∀ j, mid ≤ j → cs[j]? ≠ some ' ' := by
            intro j hj hcon
            have hall : ∀ c ∈ cs.drop mid, c ≠ ' ' :=
              (firstSpaceIdx_none_iff _).mp hR
            have hgot : (cs.drop mid)[j - mid]? = some ' ' := by
              rw [List.getElem?_drop]
              have heq : mid + (j - mid) = j := by omega
              rw [heq]
              exact hcon
            exact hall ' ' (List.getElem?_mem hgot) rfl
          refine ⟨l, ?_, hl2, ?_, ?_⟩
          · simp only [splitPos, hL, hR, ← hmiddef, Option.map_none']
          · intro j hj
            by_cases hjm : j < mid
            · have := hl3 j hj hjm
              unfold midDist
              split_ifs
              all_goals omega
            · exact absurd hj (hNoR j (by omega))
          · intro j hj hje hjm
            exact hl1
      | some r' =>
          obtain ⟨hr1, hr2⟩ := hRfacts r' hR
          have hsplit : splitPos cs =
              some (if mid - l ≤ (r' + mid) - mid then l else r' + mid) := by
            simp only [splitPos, hL, hR, ← hmiddef, Option.map_some']
          refine ⟨if mid - l ≤ (r' + mid) - mid then l else r' + mid, hsplit, ?_, ?_, ?_⟩
          · split
            · exact hl2
            · exact hr1
          · intro j hj
            by_cases hjm : j < mid
            · have hjl := hl3 j hj hjm
              unfold midDist
              split_ifs <;> omega
            · have hjr := hr2 j hj (by omega)
              unfold midDist
              split_ifs <;> omega
          · intro j hj hje hjm
            have hjl := hl3 j hj hjm
            unfold midDist at hje
            by_cases hcond : mid - l ≤ (r' + mid) - mid
            · rw [if_pos hcond]
              exact hl1
            · rw [if_neg hcond] at hje
              rw [if_neg hcond]
              revert hje
              split_ifs <;> omega

/-- Claim C5: for every string containing at least one space, the
two-line split of split_text_two_lines cuts at a space index nearest to
the character midpoint (distance measured to mid = length / 2, the left
candidate being text.rfind below mid and the right candidate text.find
at or above mid), ties between equally near candidates going to the
boundary strictly before the midpoint; the produced lines are the
stripped halves around the chosen index; and in particular
"AAAA BBBB" splits into ["AAAA", "BBBB"] and "A BBBBBBBB" into
["A", "BBBBBBBB"]. -/
theorem c5_split_at_nearest_space (s : String) (hs : hasSpaceB s = true) :
    (∃ p, splitPos s.toList = some p ∧ s.toList[p]? = some ' ' ∧
      (∀ j, s.toList[j]? = some ' ' →
        midDist (s.toList.length / 2) p ≤ midDist (s.toList.length / 2) j) ∧
      (∀ j, s.toList[j]? = some ' ' →
        midDist (s.toList.length / 2) j = midDist (s.toList.length / 2) p →
        j < s.toList.length / 2 → p < s.toList.length / 2) ∧
      split_text_two_lines s =
        [String.mk (pyStrip (s.toList.take p)),
         String.mk (pyStrip (s.toList.drop (p + 1)))]) ∧
    split_text_two_lines "AAAA BBBB" = ["AAAA", "BBBB"] ∧
    split_text_two_lines "A BBBBBBBB" = ["A", "BBBBBBBB"] := by
  have hs' : ' ' ∈ s.toList := by simpa [hasSpaceB] using hs
  obtain ⟨p, hp, h1, h2, h3⟩ := splitPos_spec s.toList hs'
  refine ⟨⟨p, hp, h1, h2, h3, ?_⟩, by decide, by decide⟩
  simp only [split_text_two_lines, hs, if_true, hp]

/-- Witness for c5_split_at_nearest_space at the concrete input
"AAAA BBBB" of the claim. -/
theorem c5_witness :
    hasSpaceB "AAAA BBBB" = true ∧
      ((∃ p, splitPos "AAAA BBBB".toList = some p ∧
        "AAAA BBBB".toList[p]? = some ' ' ∧
        (∀ j, "AAAA BBBB".toList[j]? = some ' ' →
          midDist ("AAAA BBBB".toList.length / 2) p ≤
            midDist ("AAAA BBBB".toList.length / 2) j) ∧
        (∀ j, "AAAA BBBB".toList[j]? = some ' ' →
          midDist ("AAAA BBBB".toList.length / 2) j =
            midDist ("AAAA BBBB".toList.length / 2) p →
          j < "AAAA BBBB".toList.length / 2 → p < "AAAA BBBB".toList.length / 2) ∧
        split_text_two_lines "AAAA BBBB" =
          [String.mk (pyStrip ("AAAA BBBB".toList.take p)),
           String.mk (pyStrip ("AAAA BBBB".toList.drop (p + 1)))]) ∧
      split_text_two_lines "AAAA BBBB" = ["AAAA", "BBBB"] ∧
      split_text_two_lines "A BBBBBBBB" = ["A", "BBBBBBBB"]) :=
  ⟨by decide, c5_split_at_nearest_space "AAAA BBBB" (by decide)⟩

/-- Assigning a fresh key appends the binding. -/
theorem dictSet_fresh (d : List (Int × String)) (k : Int) (v : String)
    (h : ∀ kv ∈ d, kv.1 ≠ k) : dictSet d k v = d ++ [(k, v)] := by
  induction d with
  | nil => rfl
  | cons q rest ih =>
      unfold dictSet
      rw [if_neg (h q (List.mem_cons_self q rest))]
      rw [ih (fun kv hkv => h kv (List.mem_cons_of_mem q hkv))]
      rfl

/-- When every key coerces and the coercions are pairwise distinct and
fresh for the accumulator, the comprehension build appends the coerced
pairs in order. -/
theorem buildIntDictAux_spec :
    ∀ (d : PyDict) (acc : List (Int × String)),
      (∀ kv ∈ d, (keyToInt kv.1).isSome = true) →
      List.Pairwise (fun a b => keyToInt a.1 ≠ keyToInt b.1) d →
      (∀ kv ∈ d, ∀ av ∈ acc, keyToInt kv.1 ≠ some av.1) →
      buildIntDictAux acc d =
        some (acc ++ d.map (fun kv => ((keyToInt kv.1).getD 0, kv.2))) := by
  intro d
  induction d with
  | nil => intro acc _ _ _; simp [buildIntDictAux]
  | cons kv rest ih =>
      intro acc hc hinj hfresh
      obtain ⟨k, v⟩ := kv
      obtain ⟨n, hn⟩ :=
        Option.isSome_iff_exists.mp (hc (k, v) (List.mem_cons_self _ rest))
      have hstep : buildIntDictAux acc ((k, v) :: rest) =
          buildIntDictAux (dictSet acc n v) rest := by
        simp only [buildIntDictAux, hn]
      rw [hstep]
      have hfreshacc : ∀ av ∈ acc, av.1 ≠ n := by
        intro av hav heq
        exact hfresh (k, v) (List.mem_cons_self _ rest) av hav (by rw [hn, heq])
      rw [show dictSet acc n v = acc ++ [(n, v)] from dictSet_fresh acc n v hfreshacc]
      rw [ih (acc ++ [(n, v)])
        (fun q hq => hc q (List.mem_cons_of_mem _ hq))
        (List.Pairwise.sublist (List.sublist_cons_self _ rest) hinj)
        ?_]
      · simp [hn, List.append_assoc]
      · intro q hq av hav
        rcases List.mem_append.mp hav with havacc | havn
        · exact hfresh q (List.mem_cons_of_mem _ hq) av havacc
        · have : av = (n, v) := by simpa using havn
          subst this
          have hne := (List.pairwise_cons.mp hinj).1 q hq
          rw [hn] at hne
          exact fun hcon => hne (by rw [hcon])

/-- Stable insertion produces a permutation of the extended list. -/
theorem insertPair_perm (p : Int × String) (l : List (Int × String)) :
    (insertPair p l).Perm (p :: l) := by
  induction l with
  | nil => exact List.Perm.refl _
  | cons q rest ih =>
      unfold insertPair
      by_cases h : p.1 ≤ q.1
      · rw [if_pos h]
      · rw [if_neg h]
        exact (List.Perm.cons q ih).trans (List.Perm.swap p q rest)

/-- Stable insertion preserves sortedness by key. -/
theorem insertPair_sorted (p : Int × String) (l : List (Int × String))
    (h : List.Pairwise (fun a b => a.1 ≤ b.1) l) :
    List.Pairwise (fun a b => a.1 ≤ b.1) (insertPair p l) := by
  induction l with
  | nil => simp [insertPair]
  | cons q rest ih =>
      unfold insertPair
      by_cases hpq : p.1 ≤ q.1
      · rw [if_pos hpq]
        refine List.pairwise_cons.mpr ⟨?_, h⟩
        intro x hx
        rcases List.mem_cons.mp hx with rfl | hxr
        · exact hpq
        · exact le_trans hpq ((List.pairwise_cons.mp h).1 x hxr)
      · rw [if_neg hpq]
        refine List.pairwise_cons.mpr ⟨?_, ih (List.pairwise_cons.mp h).2⟩
        intro x hx
        have hx' := (insertPair_perm p rest).mem_iff.mp hx
        rcases List.mem_cons.mp hx' with rfl | hxr
        · omega
        · exact (List.pairwise_cons.mp h).1 x hxr

/-- Sorting by key produces a permutation of the input. -/
theorem sortPairs_perm (l : List (Int × String)) : (sortPairs l).Perm l := by
  induction l with
  | nil => exact List.Perm.refl _
  | cons p rest ih =>
      exact (insertPair_perm p (sortPairs rest)).trans (List.Perm.cons p ih)

/-- Sorting by key sorts by key. -/
theorem sortPairs_sorted (l : List (Int × String)) :
    List.Pairwise (fun a b => a.1 ≤ b.1) (sortPairs l) := by
  induction l with
  | nil => simp [sortPairs]
  | cons p rest ih => exact insertPair_sorted p (sortPairs rest) ih

/-- Claim C8, amended: for every input mapping whose keys all coerce to
integers with pairwise distinct coercions, normalize_classes returns a
table sorted ascending by integer key that is a permutation of the
coerced input pairs, so every value is preserved unchanged. -/
theorem c8_normalize_sorted_preserves (d : PyDict)
    (hc : ∀ kv ∈ d, (keyToInt kv.1).isSome = true)
    (hinj : List.Pairwise (fun a b => keyToInt a.1 ≠ keyToInt b.1) d) :
    ∃ out, normalize_classes d = some out ∧
      List.Pairwise (fun a b => a.1 ≤ b.1) out ∧
      out.Perm (d.map (fun kv => ((keyToInt kv.1).getD 0, kv.2))) ∧
      (out.map Prod.snd).Perm (d.map Prod.snd) := by
  have hbuild := buildIntDictAux_spec d [] hc hinj (by simp)
  refine ⟨sortPairs (d.map (fun kv => ((keyToInt kv.1).getD 0, kv.2))), ?_, sortPairs_sorted _, sortPairs_perm _, ?_⟩
  · unfold normalize_classes buildIntDict
    rw [hbuild]
    simp
  · have hperm := (sortPairs_perm (d.map (fun kv => ((keyToInt kv.1).getD 0, kv.2)))).map Prod.snd
    refine hperm.trans ?_
    rw [List.map_map]
    exact List.Perm.refl _

/-- Witness for c8_normalize_sorted_preserves at a concrete two-entry
mapping with one string and one integer key. -/
theorem c8_witness :
    (∀ kv ∈ [(PyKey.strKey "2", "b"), (PyKey.intKey 1, "a")],
        (keyToInt kv.1).isSome = true) ∧
      List.Pairwise (fun a b => keyToInt a.1 ≠ keyToInt b.1)
        [(PyKey.strKey "2", "b"), (PyKey.intKey 1, "a")] ∧
      ∃ out, normalize_classes [(PyKey.strKey "2", "b"), (PyKey.intKey 1, "a")] = some out ∧
        List.Pairwise (fun a b => a.1 ≤ b.1) out ∧
        out.Perm ([(PyKey.strKey "2", "b"), (PyKey.intKey 1, "a")].map
          (fun kv => ((keyToInt kv.1).getD 0, kv.2))) ∧
        (out.map Prod.snd).Perm
          ([(PyKey.strKey "2", "b"), (PyKey.intKey 1, "a")].map Prod.snd) :=
  ⟨by decide, by decide,
    c8_normalize_sorted_preserves [(PyKey.strKey "2", "b"), (PyKey.intKey 1, "a")]
      (by decide) (by decide)⟩

/-- Binding over an always-failing continuation fails. -/
theorem optBind_none {α β : Type} (x : Option α) (f : α → Option β)
    (hf : ∀ a, f a = none) : x.bind f = none := by
  cases x <;> simp [hf]

/-- A dict whose keys are all integers never answers a string key. -/
theorem dictGet_strKey_none (d : PyDict) (s : String)
    (h : ∀ kv ∈ d, ∃ n, kv.1 = PyKey.intKey n) :
    dictGet d (PyKey.strKey s) = none := by
  induction d with
  | nil => rfl
  | cons kv rest ih =>
      obtain ⟨k, v⟩ := kv
      obtain ⟨n, hn⟩ := h (k, v) (List.mem_cons_self _ rest)
      simp only at hn
      subst hn
      unfold dictGet
      rw [if_neg (by simp)]
      exact ih (fun q hq => h q (List.mem_cons_of_mem _ hq))

/-- Claim C9: the label of a period is looked up with the integer
period number as dict key while room and teacher are looked up with the
decimal-string form of the period number (see periodLookups); hence a
room table, or a teacher table, whose keys are all integers makes every
day-column render abort with a lookup failure, even when it has an
entry for every rendered period. -/
theorem c9_int_keyed_room_or_teacher_table_fails (m : Measure) (x y : ℚ)
    (p1 p2 p3 p4 : Int) (cls rms tchs : PyDict)
    (h : (∀ kv ∈ rms, ∃ n, kv.1 = PyKey.intKey n) ∨
      (∀ kv ∈ tchs, ∃ n, kv.1 = PyKey.intKey n)) :
    draw_day m x y p1 p2 p3 p4 cls rms tchs = none := by
  have hper : ∀ i p, dayPeriod m x y i p cls rms tchs = none := by
    intro i p
    have hpl : periodLookups p cls rms tchs = none := by
      rcases h with hR | hT
      · unfold periodLookups
        rw [dictGet_strKey_none rms (toString p) hR]
        apply optBind_none
        intro l
        rfl
      · unfold periodLookups
        rw [dictGet_strKey_none tchs (toString p) hT]
        apply optBind_none
        intro l
        apply optBind_none
        intro r
        rfl
    unfold dayPeriod
    rw [hpl]
    rfl
  unfold draw_day
  apply optBind_none
  intro cs
  rw [hper 1 p1]
  rfl

/-- A room table for the Day-1 pattern periods under integer keys. -/
def roomInt1357 : PyDict :=
  [(PyKey.intKey 1, "R1"), (PyKey.intKey 3, "R3"),
   (PyKey.intKey 5, "R5"), (PyKey.intKey 7, "R7")]

/-- Witness for c9_int_keyed_room_or_teacher_table_fails: the
integer-keyed room table carries an entry for every Day-1 pattern
period, yet the render fails. -/
theorem c9_witness :
    draw_day mzero 0 0 1 3 5 7 labs1357 roomInt1357 tchr1357 = none :=
  c9_int_keyed_room_or_teacher_table_fails mzero 0 0 1 3 5 7 labs1357 roomInt1357 tchr1357
    (Or.inl (by
      intro kv hkv
      simp only [roomInt1357, List.mem_cons, List.not_mem_nil, or_false] at hkv
      rcases hkv with rfl | rfl | rfl | rfl <;> exact ⟨_, rfl⟩))

/-- With allow_split true the fitter always carries a line list. -/
theorem fit_snd_lines_of_true (m : Measure) (text : String) (maxW : ℚ)
    (base minS : Int) :
    ∃ ls, (fit_text_to_width m text maxW base minS true).2 = FitSnd.lines ls := by
  unfold fit_text_to_width
  by_cases h : m text base ≤ maxW
  · rw [if_pos h]
    exact ⟨[text], rfl⟩
  · rw [if_neg h]
    cases hsp : hasSpaceB text
    · simp only [Bool.true_and, hsp]
      exact ⟨[text], rfl⟩
    · simp only [Bool.true_and, hsp]
      exact ⟨split_text_two_lines text, rfl⟩

/-- dayBlock never fails: its only failing branch needs a FitSnd.size
result, which the allow_split true fit never produces. -/
theorem dayBlock_some (m : Measure) (x yA yB yS yR yT : ℚ)
    (label room teach : String) :
    ∃ es, dayBlock m x yA yB yS yR yT label room teach = some es := by
  obtain ⟨ls, hls⟩ := fit_snd_lines_of_true m label (WIDTH - 20) BASE_CLASS_TEXT_SIZE 8
  unfold dayBlock
  rcases hfit : fit_text_to_width m label (WIDTH - 20) BASE_CLASS_TEXT_SIZE 8 true with ⟨sz, snd⟩
  rw [hfit] at hls
  simp only at hls
  subst hls
  rcases ls with _ | ⟨a, _ | ⟨b, _ | rest⟩⟩ <;> exact ⟨_, rfl⟩

/-- The per-period lookup triple succeeds exactly when all three
lookups succeed. -/
theorem periodLookups_isSome_iff (p : Int) (cls rms tchs : PyDict) :
    (periodLookups p cls rms tchs).isSome = true ↔
      (dictGet cls (PyKey.intKey p)).isSome = true ∧
      (dictGet rms (PyKey.strKey (toString p))).isSome = true ∧
      (dictGet tchs (PyKey.strKey (toString p))).isSome = true := by
  cases hl : dictGet cls (PyKey.intKey p) <;>
    cases hr : dictGet rms (PyKey.strKey (toString p)) <;>
      cases ht : dictGet tchs (PyKey.strKey (toString p)) <;>
        simp [periodLookups, hl, hr, ht]

/-- A period band renders exactly when its three lookups succeed. -/
theorem dayPeriod_isSome_iff (m : Measure) (x y : ℚ) (i : Nat) (p : Int)
    (cls rms tchs : PyDict) :
    (dayPeriod m x y i p cls rms tchs).isSome = true ↔
      (periodLookups p cls rms tchs).isSome = true := by
  cases hpl : periodLookups p cls rms tchs with
  | none => simp [dayPeriod, hpl]
  | some lrt =>
      simp only [dayPeriod, hpl, Option.some_bind, Option.isSome_some, iff_true]
      match i with
      | 1 =>
          obtain ⟨es, hes⟩ := dayBlock_some m x
            (y + OTHER_HEIGHT + CLASS_HEIGHT * 0.35)
            (y + OTHER_HEIGHT + CLASS_HEIGHT * 0.60)
            (y + OTHER_HEIGHT + CLASS_HEIGHT / 2)
            (y + OTHER_HEIGHT + CLASS_HEIGHT * 0.85)
            (y + OTHER_HEIGHT + CLASS_HEIGHT * 0.15) lrt.1 lrt.2.1 lrt.2.2
          simp [dayBlock1, hes]
      | 2 =>
          obtain ⟨es, hes⟩ := dayBlock_some m x
            (y + OTHER_HEIGHT + (CLASS_HEIGHT * 0.35) + CLASS_HEIGHT + BREAK_HEIGHT)
            (y + OTHER_HEIGHT + (CLASS_HEIGHT * 0.60) + CLASS_HEIGHT + BREAK_HEIGHT)
            (y + OTHER_HEIGHT + (CLASS_HEIGHT / 2) + CLASS_HEIGHT + BREAK_HEIGHT)
            (y + OTHER_HEIGHT + BREAK_HEIGHT + CLASS_HEIGHT * 1.85)
            (y + OTHER_HEIGHT + BREAK_HEIGHT + CLASS_HEIGHT * 1.15) lrt.1 lrt.2.1 lrt.2.2
          simp [dayBlock2, hes]
      | 3 =>
          obtain ⟨es, hes⟩ := dayBlock_some m x
            (y + (OTHER_HEIGHT * 2) + (CLASS_HEIGHT * 2.35) + BREAK_HEIGHT)
            (y + (OTHER_HEIGHT * 2) + (CLASS_HEIGHT * 2.60) + BREAK_HEIGHT)
            (y + (OTHER_HEIGHT * 2) + (CLASS_HEIGHT / 2) + (CLASS_HEIGHT * 2) + BREAK_HEIGHT)
            (y + (OTHER_HEIGHT * 2) + BREAK_HEIGHT + CLASS_HEIGHT * 2.85)
            (y + (OTHER_HEIGHT * 2) + BREAK_HEIGHT + CLASS_HEIGHT * 2.15) lrt.1 lrt.2.1 lrt.2.2
          simp [dayBlock3, hes]
      | 0 =>
          obtain ⟨es, hes⟩ := dayBlock_some m x
            (y + (OTHER_HEIGHT * 2) + (CLASS_HEIGHT * 3.35) + (BREAK_HEIGHT * 2))
            (y + (OTHER_HEIGHT * 2) + (CLASS_HEIGHT * 3.60) + (BREAK_HEIGHT * 2))
            (y + (OTHER_HEIGHT * 2) + (CLASS_HEIGHT / 2) + (CLASS_HEIGHT * 3) + (BREAK_HEIGHT * 2))
            (y + (OTHER_HEIGHT * 2) + (BREAK_HEIGHT * 2) + CLASS_HEIGHT * 3.85)
            (y + (OTHER_HEIGHT * 2) + (BREAK_HEIGHT * 2) + CLASS_HEIGHT * 3.15) lrt.1 lrt.2.1 lrt.2.2
          simp [dayBlock4, hes]
      | (n + 4) =>
          obtain ⟨es, hes⟩ := dayBlock_some m x
            (y + (OTHER_HEIGHT * 2) + (CLASS_HEIGHT * 3.35) + (BREAK_HEIGHT * 2))
            (y + (OTHER_HEIGHT * 2) + (CLASS_HEIGHT * 3.60) + (BREAK_HEIGHT * 2))
            (y + (OTHER_HEIGHT * 2) + (CLASS_HEIGHT / 2) + (CLASS_HEIGHT * 3) + (BREAK_HEIGHT * 2))
            (y + (OTHER_HEIGHT * 2) + (BREAK_HEIGHT * 2) + CLASS_HEIGHT * 3.85)
            (y + (OTHER_HEIGHT * 2) + (BREAK_HEIGHT * 2) + CLASS_HEIGHT * 3.15) lrt.1 lrt.2.1 lrt.2.2
          simp [dayBlock4, hes]

/-- CLASS_COLORS answers every period from 1 to 8. -/
theorem classColors_isSome (p : Int) (h1 : 1 ≤ p) (h2 : p ≤ 8) :
    (alistGet CLASS_COLORS p).isSome = true := by
  interval_cases p <;> decide

/-- The four color lookups succeed for in-range pattern periods. -/
theorem dayColors_some (p1 p2 p3 p4 : Int)
    (h1 : 1 ≤ p1 ∧ p1 ≤ 8) (h2 : 1 ≤ p2 ∧ p2 ≤ 8)
    (h3 : 1 ≤ p3 ∧ p3 ≤ 8) (h4 : 1 ≤ p4 ∧ p4 ≤ 8) :
    ∃ cs, dayColors p1 p2 p3 p4 = some cs := by
  obtain ⟨c1, hc1⟩ := Option.isSome_iff_exists.mp (classColors_isSome p1 h1.1 h1.2)
  obtain ⟨c2, hc2⟩ := Option.isSome_iff_exists.mp (classColors_isSome p2 h2.1 h2.2)
  obtain ⟨c3, hc3⟩ := Option.isSome_iff_exists.mp (classColors_isSome p3 h3.1 h3.2)
  obtain ⟨c4, hc4⟩ := Option.isSome_iff_exists.mp (classColors_isSome p4 h4.1 h4.2)
  refine ⟨(c1, c2, c3, c4), ?_⟩
  unfold dayColors
  rw [hc1, hc2, hc3, hc4]
  rfl

/-- Given in-range colors, the day render succeeds exactly when all
four period bands render. -/
theorem draw_day_isSome_iff (m : Measure) (x y : ℚ) (p1 p2 p3 p4 : Int)
    (cls rms tchs : PyDict) (hcs : ∃ cs, dayColors p1 p2 p3 p4 = some cs) :
    (draw_day m x y p1 p2 p3 p4 cls rms tchs).isSome = true ↔
      ((dayPeriod m x y 1 p1 cls rms tchs).isSome = true ∧
        (dayPeriod m x y 2 p2 cls rms tchs).isSome = true ∧
        (dayPeriod m x y 3 p3 cls rms tchs).isSome = true ∧
        (dayPeriod m x y 4 p4 cls rms tchs).isSome = true) := by
  obtain ⟨cs, hcsome⟩ := hcs
  unfold draw_day
  rw [hcsome]
  cases h1 : dayPeriod m x y 1 p1 cls rms tchs <;>
    cases h2 : dayPeriod m x y 2 p2 cls rms tchs <;>
      cases h3 : dayPeriod m x y 3 p3 cls rms tchs <;>
        cases h4 : dayPeriod m x y 4 p4 cls rms tchs <;>
          simp

/-- Claim C1, amended: for in-range pattern periods, a regular day
column renders exactly when every pattern period has a label entry
under its integer key AND a room entry AND a teacher entry under its
decimal-string key; a period missing from the room or teacher table is
not recovered as an empty string but aborts the render just as a
missing label does. -/
theorem c1_render_succeeds_iff (m : Measure) (x y : ℚ) (p1 p2 p3 p4 : Int)
    (cls rms tchs : PyDict)
    (h1 : 1 ≤ p1 ∧ p1 ≤ 8) (h2 : 1 ≤ p2 ∧ p2 ≤ 8)
    (h3 : 1 ≤ p3 ∧ p3 ≤ 8) (h4 : 1 ≤ p4 ∧ p4 ≤ 8) :
    (draw_day m x y p1 p2 p3 p4 cls rms tchs).isSome = true ↔
      ∀ p ∈ [p1, p2, p3, p4],
        (dictGet cls (PyKey.intKey p)).isSome = true ∧
        (dictGet rms (PyKey.strKey (toString p))).isSome = true ∧
        (dictGet tchs (PyKey.strKey (toString p))).isSome = true := by
  rw [draw_day_isSome_iff m x y p1 p2 p3 p4 cls rms tchs
    (dayColors_some p1 p2 p3 p4 h1 h2 h3 h4)]
  rw [dayPeriod_isSome_iff, dayPeriod_isSome_iff, dayPeriod_isSome_iff,
    dayPeriod_isSome_iff]
  rw [periodLookups_isSome_iff, periodLookups_isSome_iff,
    periodLookups_isSome_iff, periodLookups_isSome_iff]
  constructor
  · rintro ⟨ha, hb, hc, hd⟩ p hp
    rcases List.mem_cons.mp hp with rfl | hp
    · exact ha
    rcases List.mem_cons.mp hp with rfl | hp
    · exact hb
    rcases List.mem_cons.mp hp with rfl | hp
    · exact hc
    rcases List.mem_cons.mp hp with rfl | hp
    · exact hd
    · simp at hp
  · intro h
    exact ⟨h p1 (by simp), h p2 (by simp), h p3 (by simp), h p4 (by simp)⟩

/-- Witness for c1_render_succeeds_iff on the Day-1 pattern with
complete tables. -/
theorem c1_witness :
    ((1 : Int) ≤ 1 ∧ (1 : Int) ≤ 8) ∧ ((1 : Int) ≤ 3 ∧ (3 : Int) ≤ 8) ∧
      ((1 : Int) ≤ 5 ∧ (5 : Int) ≤ 8) ∧ ((1 : Int) ≤ 7 ∧ (7 : Int) ≤ 8) ∧
      ((draw_day mzero 0 0 1 3 5 7 labs1357 room1357 tchr1357).isSome = true ↔
        ∀ p ∈ [(1 : Int), 3, 5, 7],
          (dictGet labs1357 (PyKey.intKey p)).isSome = true ∧
          (dictGet room1357 (PyKey.strKey (toString p))).isSome = true ∧
          (dictGet tchr1357 (PyKey.strKey (toString p))).isSome = true) :=
  ⟨by decide, by decide, by decide, by decide,
    c1_render_succeeds_iff mzero 0 0 1 3 5 7 labs1357 room1357 tchr1357
      (by decide) (by decide) (by decide) (by decide)⟩

/-- Looking up in the substituted table applies the Foundations
substitution to the looked-up value. -/
theorem dictGet_substF (free : String) (d : PyDict) (k : PyKey) :
    dictGet (substFoundations free d) k =
      (dictGet d k).map (fun v => if hasFoundations v then free else v) := by
  induction d with
  | nil => rfl
  | cons kv rest ih =>
      obtain ⟨k', v⟩ := kv
      simp only [substFoundations, List.map_cons] at *
      unfold dictGet
      by_cases h : k' = k
      · rw [if_pos h, if_pos h]
        rfl
      · rw [if_neg h, if_neg h]
        exact ih

/-- When all eight substituted labels are present, draw_xday emits
exactly the thirteen rectangles followed by the twenty-two text runs. -/
theorem draw_xday_eq (m : Measure) (x y : ℚ) (classes : PyDict) (free : String)
    (s1 s2 s3 s4 s5 s6 s7 s8 : String)
    (h1 : dictGet (substFoundations free classes) (PyKey.intKey 1) = some s1)
    (h2 : dictGet (substFoundations free classes) (PyKey.intKey 2) = some s2)
    (h3 : dictGet (substFoundations free classes) (PyKey.intKey 3) = some s3)
    (h4 : dictGet (substFoundations free classes) (PyKey.intKey 4) = some s4)
    (h5 : dictGet (substFoundations free classes) (PyKey.intKey 5) = some s5)
    (h6 : dictGet (substFoundations free classes) (PyKey.intKey 6) = some s6)
    (h7 : dictGet (substFoundations free classes) (PyKey.intKey 7) = some s7)
    (h8 : dictGet (substFoundations free classes) (PyKey.intKey 8) = some s8) :
    draw_xday m x y classes free =
      some (xdayRects x y ++ xdayTexts m x y s1 s2 s3 s4 s5 s6 s7 s8) := by
  unfold draw_xday dictGet4
  rw [h1, h2, h3, h4, h5, h6, h7, h8]
  rfl

/-- The X-day band structure asserted by the amended claim C3: the
render succeeds with one header band, eight class bands, three break
bands and one lunch band, and the eight class label runs appear in
document order for periods 1..8 ascending. -/
def XdayBandStructure (m : Measure) (x y : ℚ) (classes : PyDict)
    (free : String) (s1 s2 s3 s4 s5 s6 s7 s8 : String) : Prop :=
  ∃ es, draw_xday m x y classes free = some es ∧
      es.countP isXdayHeaderBand = 1 ∧
      es.countP isXdayClassBand = 8 ∧
      es.countP isBreakBand = 3 ∧
      es.countP isLunchBand = 1 ∧
      List.Sublist
        [Elem.text s1 (x + WIDTH / 2) (y + OTHER_HEIGHT + (XDAY_CLASS_HEIGHT * 0.3)) (xdayFitSize m s1) MAIN_FONT_FAMILY none,
         Elem.text s2 (x + WIDTH / 2) (y + OTHER_HEIGHT + XDAY_CLASS_HEIGHT + (XDAY_CLASS_HEIGHT * 0.3)) (xdayFitSize m s2) MAIN_FONT_FAMILY none,
         Elem.text s3 (x + WIDTH / 2) (y + OTHER_HEIGHT + (XDAY_CLASS_HEIGHT * 2) + BREAK_HEIGHT + (XDAY_CLASS_HEIGHT * 0.3)) (xdayFitSize m s3) MAIN_FONT_FAMILY none,
         Elem.text s4 (x + WIDTH / 2) (y + OTHER_HEIGHT + (XDAY_CLASS_HEIGHT * 3) + BREAK_HEIGHT + (XDAY_CLASS_HEIGHT * 0.3)) (xdayFitSize m s4) MAIN_FONT_FAMILY none,
         Elem.text s5 (x + WIDTH / 2) (y + OTHER_HEIGHT + (XDAY_CLASS_HEIGHT * 4) + (BREAK_HEIGHT * 2) + (XDAY_CLASS_HEIGHT * 0.3)) (xdayFitSize m s5) MAIN_FONT_FAMILY none,
         Elem.text s6 (x + WIDTH / 2) (y + (OTHER_HEIGHT * 2) + (XDAY_CLASS_HEIGHT * 5) + (BREAK_HEIGHT * 2) + (XDAY_CLASS_HEIGHT * 0.3)) (xdayFitSize m s6) MAIN_FONT_FAMILY none,
         Elem.text s7 (x + WIDTH / 2) (y + (OTHER_HEIGHT * 2) + (XDAY_CLASS_HEIGHT * 6) + (BREAK_HEIGHT * 2) + (XDAY_CLASS_HEIGHT * 0.3)) (xdayFitSize m s7) MAIN_FONT_FAMILY none,
         Elem.text s8 (x + WIDTH / 2) (y + (OTHER_HEIGHT * 2) + (XDAY_CLASS_HEIGHT * 7) + (BREAK_HEIGHT * 3) + (XDAY_CLASS_HEIGHT * 0.3)) (xdayFitSize m s8) MAIN_FONT_FAMILY none]
        es

/-- Claim C3, amended: whenever all eight substituted labels resolve,
the X-day column consists of one office-hours header band, eight class
bands, three break bands (not two) and one lunch band, and the eight
class label runs appear in the document in the order of periods 1..8,
each looked up under its integer key in ascending numeric order. -/
theorem c3_xday_band_structure (m : Measure) (x y : ℚ) (classes : PyDict)
    (free : String) (s1 s2 s3 s4 s5 s6 s7 s8 : String)
    (h1 : dictGet (substFoundations free classes) (PyKey.intKey 1) = some s1)
    (h2 : dictGet (substFoundations free classes) (PyKey.intKey 2) = some s2)
    (h3 : dictGet (substFoundations free classes) (PyKey.intKey 3) = some s3)
    (h4 : dictGet (substFoundations free classes) (PyKey.intKey 4) = some s4)
    (h5 : dictGet (substFoundations free classes) (PyKey.intKey 5) = some s5)
    (h6 : dictGet (substFoundations free classes) (PyKey.intKey 6) = some s6)
    (h7 : dictGet (substFoundations free classes) (PyKey.intKey 7) = some s7)
    (h8 : dictGet (substFoundations free classes) (PyKey.intKey 8) = some s8) :
    XdayBandStructure m x y classes free s1 s2 s3 s4 s5 s6 s7 s8 := by
  unfold XdayBandStructure
  refine ⟨xdayRects x y ++ xdayTexts m x y s1 s2 s3 s4 s5 s6 s7 s8,
    draw_xday_eq m x y classes free s1 s2 s3 s4 s5 s6 s7 s8 h1 h2 h3 h4 h5 h6 h7 h8,
    rfl, rfl, rfl, rfl, ?_⟩
  show List.Sublist _ (xdayRects x y ++ xdayTexts m x y s1 s2 s3 s4 s5 s6 s7 s8)
  refine List.Sublist.trans ?_ (List.sublist_append_right _ _)
  unfold xdayTexts
  apply List.Sublist.cons
  apply List.Sublist.cons₂
  apply List.Sublist.cons
  apply List.Sublist.cons₂
  apply List.Sublist.cons
  apply List.Sublist.cons
  apply List.Sublist.cons₂
  apply List.Sublist.cons
  apply List.Sublist.cons₂
  apply List.Sublist.cons
  apply List.Sublist.cons
  apply List.Sublist.cons₂
  apply List.Sublist.cons
  apply List.Sublist.cons
  apply List.Sublist.cons
  apply List.Sublist.cons₂
  apply List.Sublist.cons
  apply List.Sublist.cons₂
  apply List.Sublist.cons
  apply List.Sublist.cons
  apply List.Sublist.cons₂
  exact List.nil_sublist _

/-- Witness for c3_xday_band_structure on the complete label table,
whose period-5 Foundations entry substitutes to the free-period name. -/
theorem c3_witness :
    dictGet (substFoundations "Free" labs8) (PyKey.intKey 1) = some "Class 1" ∧
      dictGet (substFoundations "Free" labs8) (PyKey.intKey 2) = some "Class 2" ∧
      dictGet (substFoundations "Free" labs8) (PyKey.intKey 3) = some "Class 3" ∧
      dictGet (substFoundations "Free" labs8) (PyKey.intKey 4) = some "Class 4" ∧
      dictGet (substFoundations "Free" labs8) (PyKey.intKey 5) = some "Free" ∧
      dictGet (substFoundations "Free" labs8) (PyKey.intKey 6) = some "Class 6" ∧
      dictGet (substFoundations "Free" labs8) (PyKey.intKey 7) = some "Class 7" ∧
      dictGet (substFoundations "Free" labs8) (PyKey.intKey 8) = some "Class 8" ∧
      XdayBandStructure mzero 0 0 labs8 "Free"
        "Class 1" "Class 2" "Class 3" "Class 4" "Free" "Class 6" "Class 7" "Class 8" :=
  ⟨by decide, by decide, by decide, by decide, by decide, by decide, by decide, by decide,
    c3_xday_band_structure mzero 0 0 labs8 "Free"
      "Class 1" "Class 2" "Class 3" "Class 4" "Free" "Class 6" "Class 7" "Class 8"
      (by decide) (by decide) (by decide) (by decide)
      (by decide) (by decide) (by decide) (by decide)⟩

/-- Claim C6: a label table entry containing the case-sensitive
substring Foundations renders in the X-day column as the caller
supplied free-period name, while the same period renders with its
original label in a regular day column; shown here for period 5, which
appears in slot 3 of the Day-1 pattern [1, 3, 5, 7]. -/
theorem c6_foundations_substitution (m : Measure) (x y : ℚ)
    (classes rooms teachers : PyDict) (free v : String) (esx esd : List Elem)
    (h5 : dictGet classes (PyKey.intKey 5) = some v)
    (hF : hasFoundations v = true)
    (hfit : m v BASE_CLASS_TEXT_SIZE ≤ WIDTH - 20)
    (hx : draw_xday m x y classes free = some esx)
    (hd : draw_day m x y 1 3 5 7 classes rooms teachers = some esd) :
    Elem.text free (x + WIDTH / 2)
        (y + OTHER_HEIGHT + (XDAY_CLASS_HEIGHT * 4) + (BREAK_HEIGHT * 2) +
          (XDAY_CLASS_HEIGHT * 0.3))
        (xdayFitSize m free) MAIN_FONT_FAMILY none ∈ esx ∧
      Elem.text v (x + WIDTH / 2)
        (y + (OTHER_HEIGHT * 2) + (CLASS_HEIGHT / 2) + (CLASS_HEIGHT * 2) + BREAK_HEIGHT)
        (BASE_CLASS_TEXT_SIZE : ℚ) MAIN_FONT_FAMILY none ∈ esd := by
  have hs5 : dictGet (substFoundations free classes) (PyKey.intKey 5) = some free := by
    rw [dictGet_substF, h5]
    simp [hF]
  constructor
  · unfold draw_xday at hx
    cases ha : dictGet4 (substFoundations free classes) 1 2 3 4 with
    | none => rw [ha] at hx; exact absurd hx (by simp)
    | some a =>
        cases hb : dictGet4 (substFoundations free classes) 5 6 7 8 with
        | none => rw [ha, hb] at hx; exact absurd hx (by simp)
        | some b =>
            rw [ha, hb] at hx
            simp only [Option.some_bind, Option.some_inj] at hx
            have hb1 : b.1 = free := by
              simp only [dictGet4, Option.bind_eq_some'] at hb
              obtain ⟨v5, hv5, v6, hv6, v7, hv7, v8, hv8, heq⟩ := hb
              rw [hs5] at hv5
              obtain rfl := Option.some_inj.mp hv5
              obtain rfl := Option.some_inj.mp heq
              rfl
            rw [← hx, ← hb1]
            apply List.mem_append_right
            unfold xdayTexts
            apply List.mem_cons_of_mem
            apply List.mem_cons_of_mem
            apply List.mem_cons_of_mem
            apply List.mem_cons_of_mem
            apply List.mem_cons_of_mem
            apply List.mem_cons_of_mem
            apply List.mem_cons_of_mem
            apply List.mem_cons_of_mem
            apply List.mem_cons_of_mem
            apply List.mem_cons_of_mem
            apply List.mem_cons_of_mem
            exact List.mem_cons_self _ _
  · simp only [draw_day, Option.bind_eq_some'] at hd
    obtain ⟨cs, hcs, b1, hb1, b2, hb2, b3, hb3, b4, hb4, heq⟩ := hd
    obtain rfl := Option.some_inj.mp heq
    simp only [dayPeriod, Option.bind_eq_some'] at hb3
    obtain ⟨lrt, hlrt, hblk⟩ := hb3
    simp only [periodLookups, Option.bind_eq_some'] at hlrt
    obtain ⟨l, hl, r, hr, t, ht, heq2⟩ := hlrt
    obtain rfl := Option.some_inj.mp heq2
    rw [h5] at hl
    obtain rfl := Option.some_inj.mp hl
    have hfit50 : fit_text_to_width m v (WIDTH - 20) BASE_CLASS_TEXT_SIZE 8 true =
        (BASE_CLASS_TEXT_SIZE, FitSnd.lines [v]) := by
      unfold fit_text_to_width
      rw [if_pos hfit]
      rfl
    unfold dayBlock3 dayBlock at hblk
    rw [hfit50] at hblk
    simp only [Option.some_inj] at hblk
    rw [← hblk]
    apply List.mem_append_left
    apply List.mem_append_right
    apply List.mem_append_left
    exact List.mem_cons_self _ _

/-- Witness for c6_foundations_substitution at the concrete example of
the claim: period 5 = "Foundations (H)" with free-period name
"Study Period"; the X-day column carries the text "Study Period" and
the Day-1 column keeps "Foundations (H)". -/
theorem c6_witness :
    dictGet labs8 (PyKey.intKey 5) = some "Foundations (H)" ∧
      hasFoundations "Foundations (H)" = true ∧
      mzero "Foundations (H)" BASE_CLASS_TEXT_SIZE ≤ WIDTH - 20 ∧
      draw_xday mzero 0 0 labs8 "Study Period" =
        some (xdayRects 0 0 ++ xdayTexts mzero 0 0
          "Class 1" "Class 2" "Class 3" "Class 4" "Study Period" "Class 6" "Class 7" "Class 8") ∧
      draw_day mzero 0 0 1 3 5 7 labs8 room1357 tchr1357 =
        some ((draw_day mzero 0 0 1 3 5 7 labs8 room1357 tchr1357).getD []) ∧
      (Elem.text "Study Period" (0 + WIDTH / 2)
          (0 + OTHER_HEIGHT + (XDAY_CLASS_HEIGHT * 4) + (BREAK_HEIGHT * 2) +
            (XDAY_CLASS_HEIGHT * 0.3))
          (xdayFitSize mzero "Study Period") MAIN_FONT_FAMILY none ∈
            xdayRects 0 0 ++ xdayTexts mzero 0 0
              "Class 1" "Class 2" "Class 3" "Class 4" "Study Period" "Class 6" "Class 7" "Class 8" ∧
        Elem.text "Foundations (H)" (0 + WIDTH / 2)
          (0 + (OTHER_HEIGHT * 2) + (CLASS_HEIGHT / 2) + (CLASS_HEIGHT * 2) + BREAK_HEIGHT)
          (BASE_CLASS_TEXT_SIZE : ℚ) MAIN_FONT_FAMILY none ∈
            (draw_day mzero 0 0 1 3 5 7 labs8 room1357 tchr1357).getD []) :=
  ⟨by decide, by decide, by norm_num [mzero, WIDTH], rfl, by with_unfolding_all rfl,
    c6_foundations_substitution mzero 0 0 labs8 room1357 tchr1357
      "Study Period" "Foundations (H)"
      (xdayRects 0 0 ++ xdayTexts mzero 0 0
        "Class 1" "Class 2" "Class 3" "Class 4" "Study Period" "Class 6" "Class 7" "Class 8")
      ((draw_day mzero 0 0 1 3 5 7 labs8 room1357 tchr1357).getD [])
      (by decide) (by decide) (by norm_num [mzero, WIDTH]) rfl
      (by with_unfolding_all rfl)⟩
